import Mathlib

/-!
Verification development for the release-script repository (src/src/release.js).

The development shallowly embeds the parts of the program the claims are
about:

* the semantic-version arithmetic used by the version-bump step
  (the external `semver` library entry points `semver.inc(v, release)` and
  `semver.inc(v, "pre", preid)` as release.js invokes them, together with a
  parser and renderer for version strings);
* the version-resolution logic of `release()` (release.js lines 227-237);
* the git-index/worktree state acted on by the version bump and by
  `runAndGitRevertOnError` (release.js lines 177-187, 239-252);
* the satellite-mirror protocol `releaseAdRepo` (release.js lines 189-205),
  including the shelljs `ls` semantics (hidden entries are not listed);
* the whole `release()` pipeline as a command/event trace parameterised by
  the execution mode (dry run or live) and by the outcomes of external
  commands.
-/

/-! ## Characters and decimal digits -/

def isDigitC (c : Char) : Bool := 48 ≤ c.toNat && c.toNat ≤ 57

def isAlphaC (c : Char) : Bool :=
  (97 ≤ c.toNat && c.toNat ≤ 122) || (65 ≤ c.toNat && c.toNat ≤ 90)

/-- Characters allowed in semver prerelease and build identifiers:
ASCII digits, ASCII letters and the hyphen. -/
def isIdChar (c : Char) : Bool := isDigitC c || isAlphaC c || c.toNat = 45

def digitChar (d : Nat) : Char := Char.ofNat (48 + d)

def charVal (c : Char) : Nat := c.toNat - 48

/-- Decimal rendering of a natural number, fuel-based so that it reduces
in the kernel.  Agrees with the reversed base-10 digit list (proved below). -/
def natToCharsAux (fuel : Nat) (n : Nat) (acc : List Char) : List Char :=
  match fuel with
  | 0 => acc
  | f + 1 => if n = 0 then acc else natToCharsAux f (n / 10) (digitChar (n % 10) :: acc)

def natToChars (n : Nat) : List Char :=
  if n = 0 then [Char.ofNat 48] else natToCharsAux n n []

/-- Value of a digit string, most significant digit first. -/
def charsToNat (cs : List Char) : Nat :=
  cs.foldl (fun a c => 10 * a + charVal c) 0

/-- Strict decimal parser: nonempty, all digits, no leading zero
(mirrors the semver NUMERICIDENTIFIER production 0|[1-9][0-9]*). -/
def parseNatStrict (cs : List Char) : Option Nat :=
  if cs = [] then none
  else if cs.all isDigitC then
    if 1 < cs.length ∧ cs.head? = some (Char.ofNat 48) then none
    else some (charsToNat cs)
  else none

/-! ## List-of-characters splitting helpers -/

/-- Split a character list at every occurrence of the separator, like the
JavaScript String.split with a single-character separator. -/
def splitOnC (sep : Char) : List Char → List (List Char)
  | [] => [[]]
  | c :: t =>
    if c = sep then [] :: splitOnC sep t
    else
      match splitOnC sep t with
      | [] => [[c]]
      | g :: gs => (c :: g) :: gs

/-- Break a character list at the first occurrence of the separator;
returns the part before it and, when the separator occurs, the part after. -/
def breakAt (sep : Char) : List Char → List Char × Option (List Char)
  | [] => ([], none)
  | c :: t =>
    if c = sep then ([], some t)
    else
      let r := breakAt sep t
      (c :: r.1, r.2)

/-- The optional leading letter v accepted by the semver FULL grammar. -/
def dropV : List Char → List Char
  | c :: t => if c = Char.ofNat 118 then t else c :: t
  | [] => []

def joinDotC : List (List Char) → List Char
  | [] => []
  | [x] => x
  | x :: xs => x ++ Char.ofNat 46 :: joinDotC xs

/-! ## The semver data model (the external version-arithmetic library) -/

/-- A prerelease identifier: the semver library stores numeric identifiers
as numbers and the others as strings. -/
inductive PreId where
  | num (n : Nat)
  | str (s : String)
deriving DecidableEq

structure Semver where
  major : Nat
  minor : Nat
  patch : Nat
  prerelease : List PreId
deriving DecidableEq

def renderPreId : PreId → List Char
  | .num n => natToChars n
  | .str s => s.data

/-- Rendering of a version, as the semver format method produces it:
major.minor.patch, then a hyphen and the dot-joined prerelease identifiers
when the prerelease list is nonempty (build metadata never survives inc). -/
def renderSemver (v : Semver) : String :=
  String.mk (natToChars v.major ++ Char.ofNat 46 :: natToChars v.minor ++
    Char.ofNat 46 :: natToChars v.patch ++
    (if v.prerelease = [] then []
     else Char.ofNat 45 :: joinDotC (v.prerelease.map renderPreId)))

/-- One prerelease (or build) identifier: numeric identifiers must have no
leading zeros, alphanumeric identifiers must contain a non-digit and only
identifier characters. -/
def parseId (cs : List Char) : Option PreId :=
  if cs = [] then none
  else if cs.all isDigitC then (parseNatStrict cs).map .num
  else if cs.all isIdChar then some (.str (String.mk cs))
  else none

def parseIds : List (List Char) → Option (List PreId)
  | [] => some []
  | cs :: rest =>
    match parseId cs, parseIds rest with
    | some i, some is => some (i :: is)
    | _, _ => none

/-- Build-metadata validation (the result is discarded, as semver inc does). -/
def buildOk : Option (List Char) → Bool
  | none => true
  | some b => (splitOnC (Char.ofNat 46) b).all fun id => !id.isEmpty && id.all isIdChar

/-- Parser for the strict semver FULL grammar with the optional leading v:
major.minor.patch with optional -prerelease and optional +build. -/
def parseSemver (s : String) : Option Semver :=
  let cs := dropV s.data
  let core := breakAt (Char.ofNat 43) cs
  if buildOk core.2 then
    let main := breakAt (Char.ofNat 45) core.1
    match splitOnC (Char.ofNat 46) main.1 with
    | [a, b, c] =>
      match parseNatStrict a, parseNatStrict b, parseNatStrict c with
      | some M, some m, some p =>
        match main.2 with
        | none => some ⟨M, m, p, []⟩
        | some pcs =>
          if pcs = [] then none
          else (parseIds (splitOnC (Char.ofNat 46) pcs)).map (⟨M, m, p, ·⟩)
      | _, _, _ => none
    | _ => none
  else none

/-! ## The semver inc operations used by release.js -/

/-- Increment the rightmost numeric prerelease identifier; when there is
none, append the numeric identifier 0 (the semver pre case, on the
reversed list). -/
def bumpRightAux : List PreId → Option (List PreId)
  | [] => none
  | .num n :: t => some (.num (n + 1) :: t)
  | .str s :: t => (bumpRightAux t).map (.str s :: ·)

def bumpRight (l : List PreId) : List PreId :=
  match bumpRightAux l.reverse with
  | some r => r.reverse
  | none => l ++ [.num 0]

/-- The identifier step of the semver pre case: keep the list when its head
is the identifier and the following entry is numeric, otherwise restart the
prerelease at identifier.0. -/
def applyIdent (l : List PreId) (id : String) : List PreId :=
  match l with
  | .str s :: .num k :: rest =>
    if s = id then .str s :: .num k :: rest else [.str id, .num 0]
  | _ => [.str id, .num 0]

/-- semver inc with release type pre: bump the prerelease counter, then
apply the identifier when one is given (and truthy). -/
def incPre (v : Semver) (ident : Option String) : Semver :=
  let pre1 := if v.prerelease = [] then [PreId.num 0] else bumpRight v.prerelease
  let pre2 :=
    match ident with
    | none => pre1
    | some id => if id = "" then pre1 else applyIdent pre1 id
  { v with prerelease := pre2 }

/-- semver inc major: a pre-major version bumps up to the same major. -/
def incMajor (v : Semver) : Semver :=
  if v.minor ≠ 0 ∨ v.patch ≠ 0 ∨ v.prerelease = [] then
    ⟨v.major + 1, 0, 0, []⟩
  else
    ⟨v.major, 0, 0, []⟩

def incMinor (v : Semver) : Semver :=
  if v.patch ≠ 0 ∨ v.prerelease = [] then
    ⟨v.major, v.minor + 1, 0, []⟩
  else
    ⟨v.major, v.minor, 0, []⟩

def incPatch (v : Semver) : Semver :=
  if v.prerelease = [] then
    ⟨v.major, v.minor, v.patch + 1, []⟩
  else
    ⟨v.major, v.minor, v.patch, []⟩

def incV (v : Semver) (release : String) (ident : Option String) : Option Semver :=
  if release = "major" then some (incMajor v)
  else if release = "minor" then some (incMinor v)
  else if release = "patch" then some (incPatch v)
  else if release = "pre" then some (incPre v ident)
  else none

/-- The library entry point semver.inc: parse, increment, render; null
(here none) when the version does not parse or the release type is bad. -/
def semverInc (version : String) (release : String) (ident : Option String) : Option String :=
  match parseSemver version with
  | none => none
  | some v => (incV v release ident).map renderSemver

/-! ## Version resolution (release.js lines 207-237) -/

/-- JavaScript truthiness of an optional string: undefined and the empty
string are falsy. -/
def truthyOpt : Option String → Bool
  | none => false
  | some s => s ≠ ""

/-- The version-bump computation of release(): with no bump type the old
version is kept; major, minor and patch go through semver.inc; any other
bump type is used verbatim as the target version; finally a truthy preid
applies semver.inc with release type pre (semver.inc of null stays null). -/
def baseVersionOf (oldVersion : String) (type : Option String) : Option String :=
  match type with
  | none => some oldVersion
  | some t =>
    if t = "major" ∨ t = "minor" ∨ t = "patch" then semverInc oldVersion t none
    else some t

def resolveVersion (oldVersion : String) (type : Option String) (preid : Option String) :
    Option String :=
  if truthyOpt preid then
    match baseVersionOf oldVersion type with
    | none => none
    | some nv => semverInc nv "pre" preid
  else baseVersionOf oldVersion type

/-! ## Semantic-version ordering (for the strict-growth claim) -/

def strLtB (a b : String) : Bool := decide (a < b)

def PreId.ltB : PreId → PreId → Bool
  | .num a, .num b => a < b
  | .num _, .str _ => true
  | .str _, .num _ => false
  | .str a, .str b => strLtB a b

/-- Lexicographic comparison of two nonempty prerelease identifier lists:
a strict prefix is smaller. -/
def preLexLt : List PreId → List PreId → Bool
  | [], [] => false
  | [], _ :: _ => true
  | _ :: _, [] => false
  | a :: as, b :: bs => if a = b then preLexLt as bs else PreId.ltB a b

/-- Semver ordering: compare the main triple numerically; a version with a
prerelease sorts below the same triple without one; two prereleases compare
lexicographically. -/
def semverLtB (a b : Semver) : Bool :=
  if a.major ≠ b.major then a.major < b.major
  else if a.minor ≠ b.minor then a.minor < b.minor
  else if a.patch ≠ b.patch then a.patch < b.patch
  else
    match a.prerelease, b.prerelease with
    | [], _ => false
    | _ :: _, [] => true
    | x :: xs, y :: ys => preLexLt (x :: xs) (y :: ys)

/-! ## Wellformedness of semver values -/

def idOkStr (s : String) : Bool :=
  !s.data.isEmpty && s.data.all isIdChar && !s.data.all isDigitC

def PreId.wf : PreId → Bool
  | .num _ => true
  | .str s => idOkStr s

def Semver.wf (v : Semver) : Bool := v.prerelease.all PreId.wf

/-! ## Decimal rendering roundtrip -/

theorem digitChar_toNat (d : Nat) (h : d < 10) : (digitChar d).toNat = 48 + d := by
  interval_cases d <;> decide

theorem isDigitC_digitChar (d : Nat) (h : d < 10) : isDigitC (digitChar d) = true := by
  interval_cases d <;> decide

theorem charVal_digitChar (d : Nat) (h : d < 10) : charVal (digitChar d) = d := by
  interval_cases d <;> decide

theorem digitChar_ne_zeroChar (d : Nat) (h : d < 10) (hd : d ≠ 0) :
    digitChar d ≠ Char.ofNat 48 := by
  interval_cases d <;> simp_all <;> decide

theorem natToCharsAux_eq (f : Nat) : ∀ (n : Nat) (acc : List Char), n ≤ f →
    natToCharsAux f n acc = ((Nat.digits 10 n).map digitChar).reverse ++ acc := by
  induction f with
  | zero =>
    intro n acc h
    interval_cases n
    simp [natToCharsAux]
  | succ f ih =>
    intro n acc h
    by_cases hn : n = 0
    · subst hn; simp [natToCharsAux]
    · rw [natToCharsAux, if_neg hn,
        ih (n / 10) _ (by
          have := Nat.div_lt_self (Nat.pos_of_ne_zero hn) (by norm_num : 1 < 10)
          omega),
        Nat.digits_def' (by norm_num : 1 < 10) (Nat.pos_of_ne_zero hn)]
      simp

theorem natToChars_eq (n : Nat) (hn : n ≠ 0) :
    natToChars n = ((Nat.digits 10 n).map digitChar).reverse := by
  unfold natToChars
  rw [if_neg hn, natToCharsAux_eq n n [] le_rfl, List.append_nil]

theorem natToChars_ne_nil (n : Nat) : natToChars n ≠ [] := by
  by_cases hn : n = 0
  · subst hn; decide
  · rw [natToChars_eq n hn]
    simp [Nat.digits_ne_nil_iff_ne_zero.mpr hn]

theorem mem_natToChars_isDigitC (n : Nat) (c : Char) (hc : c ∈ natToChars n) :
    isDigitC c = true := by
  by_cases hn : n = 0
  · subst hn; simp [natToChars] at hc; subst hc; decide
  · rw [natToChars_eq n hn] at hc
    simp only [List.mem_reverse, List.mem_map] at hc
    obtain ⟨d, hd, rfl⟩ := hc
    exact isDigitC_digitChar d (Nat.digits_lt_base (by norm_num) hd)

theorem foldr_digits_eq_ofDigits (l : List Nat) (h : ∀ d ∈ l, d < 10) :
    l.foldr (fun d a => 10 * a + charVal (digitChar d)) 0 = Nat.ofDigits 10 l := by
  induction l with
  | nil => simp [Nat.ofDigits]
  | cons d t ih =>
    simp only [List.foldr_cons, Nat.ofDigits_cons, Nat.cast_id]
    rw [ih (fun x hx => h x (List.mem_cons_of_mem d hx)),
      charVal_digitChar d (h d (List.mem_cons_self d t))]
    omega

theorem charsToNat_natToChars (n : Nat) : charsToNat (natToChars n) = n := by
  by_cases hn : n = 0
  · subst hn; rfl
  · rw [natToChars_eq n hn]
    unfold charsToNat
    rw [List.foldl_reverse, List.foldr_map]
    exact (foldr_digits_eq_ofDigits _ fun d hd =>
      Nat.digits_lt_base (by norm_num) hd).trans (Nat.ofDigits_digits 10 n)

theorem parseNatStrict_natToChars (n : Nat) : parseNatStrict (natToChars n) = some n := by
  by_cases hn : n = 0
  · subst hn; rfl
  · unfold parseNatStrict
    rw [if_neg (natToChars_ne_nil n)]
    rw [if_pos (List.all_eq_true.mpr fun c hc => mem_natToChars_isDigitC n c hc)]
    rw [if_neg ?_, charsToNat_natToChars]
    rintro ⟨hlen, hhead⟩
    rw [natToChars_eq n hn, List.head?_reverse, List.getLast?_map] at hhead
    have hne : Nat.digits 10 n ≠ [] := Nat.digits_ne_nil_iff_ne_zero.mpr hn
    rw [List.getLast?_eq_getLast _ hne] at hhead
    simp only [Option.map_some', Option.some.injEq] at hhead
    exact digitChar_ne_zeroChar _
      (Nat.digits_lt_base (by norm_num) (List.getLast_mem hne))
      (Nat.getLast_digit_ne_zero 10 hn) hhead

/-! ## Splitting lemmas -/

theorem splitOnC_ne_nil (sep : Char) (l : List Char) : splitOnC sep l ≠ [] := by
  cases l with
  | nil => simp [splitOnC]
  | cons c t =>
    rw [splitOnC]
    split
    · simp
    · split <;> simp

theorem splitOnC_not_mem (sep : Char) (l : List Char) (h : sep ∉ l) :
    splitOnC sep l = [l] := by
  induction l with
  | nil => rfl
  | cons c t ih =>
    simp only [List.mem_cons, not_or] at h
    rw [splitOnC, if_neg (fun hc => h.1 hc.symm), ih h.2]

theorem splitOnC_append (sep : Char) (a b : List Char) (h : sep ∉ a) :
    splitOnC sep (a ++ sep :: b) = a :: splitOnC sep b := by
  induction a with
  | nil => simp [splitOnC]
  | cons c t ih =>
    simp only [List.mem_cons, not_or] at h
    rw [List.cons_append, splitOnC, if_neg (fun hc => h.1 hc.symm), ih h.2]

theorem breakAt_not_mem (sep : Char) (l : List Char) (h : sep ∉ l) :
    breakAt sep l = (l, none) := by
  induction l with
  | nil => rfl
  | cons c t ih =>
    simp only [List.mem_cons, not_or] at h
    rw [breakAt, if_neg (fun hc => h.1 hc.symm), ih h.2]

theorem breakAt_append (sep : Char) (a b : List Char) (h : sep ∉ a) :
    breakAt sep (a ++ sep :: b) = (a, some b) := by
  induction a with
  | nil => simp [breakAt]
  | cons c t ih =>
    simp only [List.mem_cons, not_or] at h
    rw [List.cons_append, breakAt, if_neg (fun hc => h.1 hc.symm), ih h.2]

theorem mem_joinDotC (c : Char) (ids : List (List Char)) (h : c ∈ joinDotC ids) :
    c = Char.ofNat 46 ∨ ∃ x ∈ ids, c ∈ x := by
  induction ids with
  | nil => simp [joinDotC] at h
  | cons x xs ih =>
    cases xs with
    | nil =>
      simp only [joinDotC] at h
      exact Or.inr ⟨x, List.mem_cons_self x [], h⟩
    | cons y ys =>
      have hj : joinDotC (x :: y :: ys) = x ++ Char.ofNat 46 :: joinDotC (y :: ys) := rfl
      rw [hj] at h
      rcases List.mem_append.mp h with hx | hrest
      · exact Or.inr ⟨x, List.mem_cons_self _ _, hx⟩
      · rcases List.mem_cons.mp hrest with hc | hr
        · exact Or.inl hc
        · rcases ih hr with hc | ⟨z, hz, hcz⟩
          · exact Or.inl hc
          · exact Or.inr ⟨z, List.mem_cons_of_mem x hz, hcz⟩

theorem splitOnC_joinDotC (ids : List (List Char)) (h : ids ≠ [])
    (h2 : ∀ x ∈ ids, Char.ofNat 46 ∉ x) :
    splitOnC (Char.ofNat 46) (joinDotC ids) = ids := by
  induction ids with
  | nil => exact absurd rfl h
  | cons x xs ih =>
    cases xs with
    | nil => exact splitOnC_not_mem _ x (h2 x (List.mem_cons_self x []))
    | cons y ys =>
      have hj : joinDotC (x :: y :: ys) = x ++ Char.ofNat 46 :: joinDotC (y :: ys) := rfl
      rw [hj, splitOnC_append _ _ _ (h2 x (List.mem_cons_self _ _)),
        ih (by simp) (fun z hz => h2 z (List.mem_cons_of_mem x hz))]

/-! ## Character-class separation -/

theorem not_mem_natToChars (n : Nat) (c : Char) (hc : isDigitC c = false) :
    c ∉ natToChars n := fun hmem => by
  rw [mem_natToChars_isDigitC n c hmem] at hc
  cases hc

theorem mem_renderPreId_idChar (i : PreId) (h : PreId.wf i = true) (c : Char)
    (hc : c ∈ renderPreId i) : isIdChar c = true := by
  cases i with
  | num n =>
    have := mem_natToChars_isDigitC n c hc
    simp [isIdChar, this]
  | str s =>
    simp only [PreId.wf, idOkStr, Bool.and_eq_true] at h
    exact List.all_eq_true.mp h.1.2 c hc

theorem renderPreId_ne_nil (i : PreId) (h : PreId.wf i = true) : renderPreId i ≠ [] := by
  cases i with
  | num n => exact natToChars_ne_nil n
  | str s =>
    simp only [PreId.wf, idOkStr, Bool.and_eq_true, Bool.not_eq_true'] at h
    simpa [renderPreId, List.isEmpty_iff] using h.1.1

theorem joinDotC_ne_nil (x : List Char) (xs : List (List Char)) (hx : x ≠ []) :
    joinDotC (x :: xs) ≠ [] := by
  cases xs with
  | nil => exact hx
  | cons y ys =>
    have hj : joinDotC (x :: y :: ys) = x ++ Char.ofNat 46 :: joinDotC (y :: ys) := rfl
    rw [hj]
    simp [hx]

/-! ## Identifier parsing roundtrip -/

theorem string_mk_data (s : String) : String.mk s.data = s := rfl

theorem parseId_renderPreId (i : PreId) (h : PreId.wf i = true) :
    parseId (renderPreId i) = some i := by
  cases i with
  | num n =>
    show parseId (natToChars n) = some (.num n)
    unfold parseId
    rw [if_neg (natToChars_ne_nil n),
      if_pos (List.all_eq_true.mpr fun c hc => mem_natToChars_isDigitC n c hc),
      parseNatStrict_natToChars]
    rfl
  | str s =>
    simp only [PreId.wf, idOkStr, Bool.and_eq_true, Bool.not_eq_true'] at h
    obtain ⟨⟨h1, h2⟩, h3⟩ := h
    show parseId s.data = some (.str s)
    unfold parseId
    rw [if_neg (by simpa [List.isEmpty_iff] using h1), if_neg (by simp [h3]), if_pos h2,
      string_mk_data]

theorem parseIds_map_renderPreId (ids : List PreId) (h : ∀ i ∈ ids, PreId.wf i = true) :
    parseIds (ids.map renderPreId) = some ids := by
  induction ids with
  | nil => rfl
  | cons i is ih =>
    simp only [List.map_cons, parseIds]
    rw [parseId_renderPreId i (h i (List.mem_cons_self _ _)),
      ih (fun j hj => h j (List.mem_cons_of_mem i hj))]

/-! ## Full parse-render roundtrip for wellformed versions -/

theorem dropV_natToChars_append (n : Nat) (t : List Char) :
    dropV (natToChars n ++ t) = natToChars n ++ t := by
  obtain ⟨c, cs, hcs⟩ := List.exists_cons_of_ne_nil (natToChars_ne_nil n)
  rw [hcs, List.cons_append, dropV, if_neg]
  intro he
  have hd := mem_natToChars_isDigitC n c (hcs ▸ List.mem_cons_self c cs)
  rw [he] at hd
  exact absurd hd (by decide)

theorem parseSemver_renderSemver (v : Semver) (h : v.wf = true) :
    parseSemver (renderSemver v) = some v := by
  obtain ⟨M, m, p, pre⟩ := v
  simp only [Semver.wf] at h
  have hwf : ∀ i ∈ pre, PreId.wf i = true := List.all_eq_true.mp h
  have hA46 : Char.ofNat 46 ∉ natToChars M := not_mem_natToChars M _ (by decide)
  have hB46 : Char.ofNat 46 ∉ natToChars m := not_mem_natToChars m _ (by decide)
  have hC46 : Char.ofNat 46 ∉ natToChars p := not_mem_natToChars p _ (by decide)
  have hA45 : Char.ofNat 45 ∉ natToChars M := not_mem_natToChars M _ (by decide)
  have hB45 : Char.ofNat 45 ∉ natToChars m := not_mem_natToChars m _ (by decide)
  have hC45 : Char.ofNat 45 ∉ natToChars p := not_mem_natToChars p _ (by decide)
  cases pre with
  | nil =>
    have hL : (renderSemver ⟨M, m, p, []⟩).data =
        natToChars M ++ Char.ofNat 46 :: (natToChars m ++ Char.ofNat 46 :: natToChars p) := by
      simp [renderSemver]
    have h43 : Char.ofNat 43 ∉
        natToChars M ++ Char.ofNat 46 :: (natToChars m ++ Char.ofNat 46 :: natToChars p) := by
      intro hc
      rcases List.mem_append.mp hc with hc | hc
      · exact not_mem_natToChars M _ (by decide) hc
      · rcases List.mem_cons.mp hc with hc | hc
        · exact absurd hc (by decide)
        · rcases List.mem_append.mp hc with hc | hc
          · exact not_mem_natToChars m _ (by decide) hc
          · rcases List.mem_cons.mp hc with hc | hc
            · exact absurd hc (by decide)
            · exact not_mem_natToChars p _ (by decide) hc
    have h45 : Char.ofNat 45 ∉
        natToChars M ++ Char.ofNat 46 :: (natToChars m ++ Char.ofNat 46 :: natToChars p) := by
      intro hc
      rcases List.mem_append.mp hc with hc | hc
      · exact hA45 hc
      · rcases List.mem_cons.mp hc with hc | hc
        · exact absurd hc (by decide)
        · rcases List.mem_append.mp hc with hc | hc
          · exact hB45 hc
          · rcases List.mem_cons.mp hc with hc | hc
            · exact absurd hc (by decide)
            · exact hC45 hc
    simp only [parseSemver, hL, dropV_natToChars_append, breakAt_not_mem _ _ h43,
      breakAt_not_mem _ _ h45, buildOk, splitOnC_append _ _ _ hA46,
      splitOnC_append _ _ _ hB46, splitOnC_not_mem _ _ hC46, parseNatStrict_natToChars,
      if_true]
  | cons i is =>
    have hinn : renderPreId i ≠ [] := renderPreId_ne_nil i (hwf i (List.mem_cons_self _ _))
    have hpnn : (i :: is).map renderPreId ≠ [] := by simp
    have hpcs46 : ∀ x ∈ (i :: is).map renderPreId, Char.ofNat 46 ∉ x := by
      intro x hx hc
      obtain ⟨j, hj, rfl⟩ := List.mem_map.mp hx
      have := mem_renderPreId_idChar j (hwf j hj) _ hc
      exact absurd this (by decide)
    have hpcs43 : Char.ofNat 43 ∉ joinDotC ((i :: is).map renderPreId) := by
      intro hc
      rcases mem_joinDotC _ _ hc with hc | ⟨x, hx, hcx⟩
      · exact absurd hc (by decide)
      · obtain ⟨j, hj, rfl⟩ := List.mem_map.mp hx
        have := mem_renderPreId_idChar j (hwf j hj) _ hcx
        exact absurd this (by decide)
    have hL : (renderSemver ⟨M, m, p, i :: is⟩).data =
        natToChars M ++ Char.ofNat 46 :: (natToChars m ++ Char.ofNat 46 ::
          (natToChars p ++ Char.ofNat 45 :: joinDotC ((i :: is).map renderPreId))) := by
      simp [renderSemver]
    have h43 : Char.ofNat 43 ∉
        natToChars M ++ Char.ofNat 46 :: (natToChars m ++ Char.ofNat 46 ::
          (natToChars p ++ Char.ofNat 45 :: joinDotC ((i :: is).map renderPreId))) := by
      intro hc
      rcases List.mem_append.mp hc with hc | hc
      · exact not_mem_natToChars M _ (by decide) hc
      · rcases List.mem_cons.mp hc with hc | hc
        · exact absurd hc (by decide)
        · rcases List.mem_append.mp hc with hc | hc
          · exact not_mem_natToChars m _ (by decide) hc
          · rcases List.mem_cons.mp hc with hc | hc
            · exact absurd hc (by decide)
            · rcases List.mem_append.mp hc with hc | hc
              · exact not_mem_natToChars p _ (by decide) hc
              · rcases List.mem_cons.mp hc with hc | hc
                · exact absurd hc (by decide)
                · exact hpcs43 hc
    have h45main : Char.ofNat 45 ∉
        natToChars M ++ Char.ofNat 46 :: (natToChars m ++ Char.ofNat 46 :: natToChars p) := by
      intro hc
      rcases List.mem_append.mp hc with hc | hc
      · exact hA45 hc
      · rcases List.mem_cons.mp hc with hc | hc
        · exact absurd hc (by decide)
        · rcases List.mem_append.mp hc with hc | hc
          · exact hB45 hc
          · rcases List.mem_cons.mp hc with hc | hc
            · exact absurd hc (by decide)
            · exact hC45 hc
    have hgroup : natToChars M ++ Char.ofNat 46 :: (natToChars m ++ Char.ofNat 46 ::
          (natToChars p ++ Char.ofNat 45 :: joinDotC ((i :: is).map renderPreId))) =
        (natToChars M ++ Char.ofNat 46 :: (natToChars m ++ Char.ofNat 46 :: natToChars p)) ++
          Char.ofNat 45 :: joinDotC ((i :: is).map renderPreId) := by
      simp [List.append_assoc]
    simp only [parseSemver, hL, dropV_natToChars_append, breakAt_not_mem _ _ h43]
    rw [hgroup, breakAt_append _ _ _ h45main]
    simp only [buildOk, if_true, splitOnC_append _ _ _ hA46, splitOnC_append _ _ _ hB46,
      splitOnC_not_mem _ _ hC46, parseNatStrict_natToChars,
      splitOnC_joinDotC _ hpnn hpcs46, parseIds_map_renderPreId _ hwf, Option.map_some']
    rw [if_neg (by rw [List.map_cons] ; exact joinDotC_ne_nil _ _ hinn)]

/-! ## Wellformedness of parsed and incremented versions -/

theorem parseId_wf (cs : List Char) (i : PreId) (h : parseId cs = some i) :
    PreId.wf i = true := by
  by_cases h0 : cs = []
  · rw [parseId, if_pos h0] at h
    cases h
  by_cases h1 : cs.all isDigitC = true
  · rw [parseId, if_neg h0, if_pos h1] at h
    cases hp : parseNatStrict cs with
    | none => rw [hp] at h; cases h
    | some n => rw [hp] at h; cases h; rfl
  by_cases h2 : cs.all isIdChar = true
  · rw [parseId, if_neg h0, if_neg h1, if_pos h2] at h
    cases h
    simp only [PreId.wf, idOkStr, string_mk_data]
    simp only [Bool.and_eq_true, Bool.not_eq_true']
    refine ⟨⟨?_, h2⟩, ?_⟩
    · simpa [List.isEmpty_iff] using h0
    · simpa using h1
  · rw [parseId, if_neg h0, if_neg h1, if_neg h2] at h
    cases h

theorem parseIds_wf (ls : List (List Char)) : ∀ (is : List PreId),
    parseIds ls = some is → ∀ i ∈ is, PreId.wf i = true := by
  induction ls with
  | nil => intro is h i hi; cases h; cases hi
  | cons cs rest ih =>
    intro is h i hi
    unfold parseIds at h
    cases hp : parseId cs with
    | none => rw [hp] at h; cases h
    | some j =>
      cases hr : parseIds rest with
      | none => rw [hp, hr] at h; cases h
      | some js =>
        rw [hp, hr] at h
        cases h
        rcases List.mem_cons.mp hi with rfl | hi
        · exact parseId_wf cs i hp
        · exact ih js hr i hi

theorem parseSemver_wf (s : String) (v : Semver) (h : parseSemver s = some v) :
    v.wf = true := by
  simp only [parseSemver] at h
  split at h
  · split at h
    · rename_i a b c
      split at h
      · rename_i M m p hM hm hp
        split at h
        · cases h; rfl
        · rename_i pcs
          split at h
          · cases h
          · rcases Option.map_eq_some'.mp h with ⟨pre, hpre, rfl⟩
            simp only [Semver.wf]
            exact List.all_eq_true.mpr (parseIds_wf _ pre hpre)
      · cases h
    · cases h
  · cases h

theorem bumpRightAux_wf (l : List PreId) (hl : ∀ i ∈ l, PreId.wf i = true) :
    ∀ r, bumpRightAux l = some r → ∀ i ∈ r, PreId.wf i = true := by
  induction l with
  | nil => intro r h; cases h
  | cons x t ih =>
    intro r h i hi
    cases x with
    | num n =>
      cases h
      rcases List.mem_cons.mp hi with rfl | hi
      · rfl
      · exact hl i (List.mem_cons_of_mem _ hi)
    | str s =>
      simp only [bumpRightAux] at h
      rcases Option.map_eq_some'.mp h with ⟨r2, hr2, rfl⟩
      rcases List.mem_cons.mp hi with rfl | hi
      · exact hl _ (List.mem_cons_self _ _)
      · exact ih (fun j hj => hl j (List.mem_cons_of_mem _ hj)) r2 hr2 i hi

theorem bumpRight_wf (l : List PreId) (hl : ∀ i ∈ l, PreId.wf i = true) :
    ∀ i ∈ bumpRight l, PreId.wf i = true := by
  intro i hi
  unfold bumpRight at hi
  split at hi
  · rename_i r hr
    exact bumpRightAux_wf l.reverse (fun j hj => hl j (List.mem_reverse.mp hj)) r hr i
      (List.mem_reverse.mp hi)
  · rcases List.mem_append.mp hi with hi | hi
    · exact hl i hi
    · rcases List.mem_cons.mp hi with rfl | hi
      · rfl
      · cases hi

theorem applyIdent_wf (l : List PreId) (id : String) (hl : ∀ i ∈ l, PreId.wf i = true)
    (hid : idOkStr id = true) : ∀ i ∈ applyIdent l id, PreId.wf i = true := by
  intro i hi
  unfold applyIdent at hi
  split at hi
  · rename_i s k rest
    split at hi
    · exact hl i hi
    · rcases List.mem_cons.mp hi with rfl | hi
      · exact hid
      · rcases List.mem_cons.mp hi with rfl | hi
        · rfl
        · cases hi
  · rcases List.mem_cons.mp hi with rfl | hi
    · exact hid
    · rcases List.mem_cons.mp hi with rfl | hi
      · rfl
      · cases hi

theorem incPre_wf (v : Semver) (ident : Option String) (hv : v.wf = true)
    (hid : ∀ id, ident = some id → id ≠ "" → idOkStr id = true) :
    (incPre v ident).wf = true := by
  have hl : ∀ i ∈ v.prerelease, PreId.wf i = true := List.all_eq_true.mp hv
  have hpre1 : ∀ i ∈ (if v.prerelease = [] then [PreId.num 0] else bumpRight v.prerelease),
      PreId.wf i = true := by
    split
    · intro i hi
      rcases List.mem_cons.mp hi with rfl | hi
      · rfl
      · cases hi
    · exact bumpRight_wf _ hl
  simp only [incPre, Semver.wf]
  refine List.all_eq_true.mpr ?_
  cases ident with
  | none => exact hpre1
  | some id =>
    by_cases hid0 : id = ""
    · simp only [hid0, if_pos rfl]
      exact hpre1
    · simp only [if_neg hid0]
      exact applyIdent_wf _ id hpre1 (hid id rfl hid0)

theorem incMajor_wf (v : Semver) : (incMajor v).wf = true := by
  unfold incMajor
  split <;> rfl

theorem incMinor_wf (v : Semver) : (incMinor v).wf = true := by
  unfold incMinor
  split <;> rfl

theorem incPatch_wf (v : Semver) : (incPatch v).wf = true := by
  unfold incPatch
  split <;> rfl

/-! ## The prerelease segment carries the identifier -/

theorem applyIdent_head (l : List PreId) (id : String) :
    (applyIdent l id).head? = some (.str id) := by
  unfold applyIdent
  split
  · rename_i s k rest
    split
    · rename_i hs
      rw [hs]
      rfl
    · rfl
  · rfl

theorem incPre_head (v : Semver) (id : String) (hid : id ≠ "") :
    (incPre v (some id)).prerelease.head? = some (.str id) := by
  simp only [incPre, if_neg hid]
  exact applyIdent_head _ id

/-! ## Strict growth of major, minor and patch increments -/

theorem semverLtB_incMajor (v : Semver) : semverLtB v (incMajor v) = true := by
  obtain ⟨M, m, p, pre⟩ := v
  unfold incMajor semverLtB
  by_cases hc : m ≠ 0 ∨ p ≠ 0 ∨ pre = []
  · rw [if_pos hc]
    simp
  · rw [if_neg hc]
    push_neg at hc
    obtain ⟨hm, hp, hpre⟩ := hc
    subst hm hp
    simp only [ne_eq, not_true_eq_false, if_false, if_neg]
    cases pre with
    | nil => exact absurd rfl hpre
    | cons x xs => simp

theorem semverLtB_incMinor (v : Semver) : semverLtB v (incMinor v) = true := by
  obtain ⟨M, m, p, pre⟩ := v
  unfold incMinor semverLtB
  by_cases hc : p ≠ 0 ∨ pre = []
  · rw [if_pos hc]
    simp
  · rw [if_neg hc]
    push_neg at hc
    obtain ⟨hp, hpre⟩ := hc
    subst hp
    cases pre with
    | nil => exact absurd rfl hpre
    | cons x xs => simp

theorem semverLtB_incPatch (v : Semver) : semverLtB v (incPatch v) = true := by
  obtain ⟨M, m, p, pre⟩ := v
  unfold incPatch semverLtB
  by_cases hc : pre = ([] : List PreId)
  · rw [if_pos hc]
    subst hc
    simp
  · rw [if_neg hc]
    cases pre with
    | nil => exact absurd rfl hc
    | cons x xs => simp

/-! ## The pre-release step of resolution, on valid bases -/

theorem semverInc_pre_step (b : String) (w : Semver) (hw : parseSemver b = some w)
    (hwf : w.wf = true) (p : String) (hp : p ≠ "") (hok : idOkStr p = true) :
    semverInc b "pre" (some p) = some (renderSemver (incPre w (some p))) ∧
      parseSemver (renderSemver (incPre w (some p))) = some (incPre w (some p)) := by
  have hwfp : (incPre w (some p)).wf = true :=
    incPre_wf w (some p) hwf (fun id hid _ => by cases hid; exact hok)
  refine ⟨?_, parseSemver_renderSemver _ hwfp⟩
  simp [semverInc, hw, incV]

/-- C3: with the bump kind absent and a pre-release identifier given,
release() applies the semver pre increment to the current version itself
(never to an incremented version); in particular current version
2.0.0-beta.0 with preid beta resolves to 2.0.0-beta.1. -/
theorem preid_without_type_bumps_current (oldVersion p : String) (hp : p ≠ "") :
    resolveVersion oldVersion none (some p) = semverInc oldVersion "pre" (some p) ∧
      resolveVersion "2.0.0-beta.0" none (some "beta") = some "2.0.0-beta.1" := by
  constructor
  · simp [resolveVersion, truthyOpt, hp, baseVersionOf]
  · decide

theorem preid_without_type_bumps_current_witness :
    "beta" ≠ "" ∧
      (resolveVersion "2.0.0-beta.0" none (some "beta") =
          semverInc "2.0.0-beta.0" "pre" (some "beta") ∧
        resolveVersion "2.0.0-beta.0" none (some "beta") = some "2.0.0-beta.1") :=
  ⟨by decide, preid_without_type_bumps_current "2.0.0-beta.0" "beta" (by decide)⟩

/-- C4: for every semver-valid current version and bump kind major, minor or
patch, the resolved version is strictly greater than the current version
under semantic-version ordering. -/
theorem bump_strictly_greater (oldVersion t : String) (v : Semver)
    (hv : parseSemver oldVersion = some v)
    (ht : t = "major" ∨ t = "minor" ∨ t = "patch") :
    ∃ w : Semver, resolveVersion oldVersion (some t) none = some (renderSemver w) ∧
      semverLtB v w = true := by
  have hres : resolveVersion oldVersion (some t) none = semverInc oldVersion t none := by
    simp [resolveVersion, truthyOpt, baseVersionOf, if_pos ht]
  rcases ht with rfl | rfl | rfl
  · exact ⟨incMajor v, by rw [hres]; simp [semverInc, hv, incV], semverLtB_incMajor v⟩
  · exact ⟨incMinor v, by rw [hres]; simp [semverInc, hv, incV], semverLtB_incMinor v⟩
  · exact ⟨incPatch v, by rw [hres]; simp [semverInc, hv, incV], semverLtB_incPatch v⟩

theorem bump_strictly_greater_witness :
    parseSemver "1.2.3" = some ⟨1, 2, 3, []⟩ ∧
      ∃ w : Semver, resolveVersion "1.2.3" (some "minor") none = some (renderSemver w) ∧
        semverLtB ⟨1, 2, 3, []⟩ w = true :=
  ⟨by decide, bump_strictly_greater "1.2.3" "minor" ⟨1, 2, 3, []⟩ (by decide) (by simp)⟩

/-- C5 as stated is false: the bump kind foo is used verbatim, so the
resolved version foo is not a semver-valid version string. -/
theorem resolved_version_not_always_valid :
    resolveVersion "1.2.3" (some "foo") none = some "foo" ∧ parseSemver "foo" = none := by
  constructor
  · decide
  · decide

/-- The amended precondition for C5: the current version must be
semver-valid when it is used as the base, and an explicit bump string must
itself be semver-valid. -/
def validBumpInput (oldVersion : String) (type : Option String) : Prop :=
  match type with
  | none => (parseSemver oldVersion).isSome = true
  | some t =>
    if t = "major" ∨ t = "minor" ∨ t = "patch" then (parseSemver oldVersion).isSome = true
    else (parseSemver t).isSome = true

/-- C5 amended: when the base version is semver-valid (in particular, when
an explicit bump string is itself semver-valid rather than arbitrary) and
any pre-release identifier is a wellformed non-numeric identifier, the
resolved version is a semver-valid string and, when a truthy identifier is
given, its parsed prerelease segment begins with that identifier. -/
theorem resolved_version_valid_on_valid_input (oldVersion : String)
    (type preid : Option String) (hbase : validBumpInput oldVersion type)
    (hpre : ∀ p, preid = some p → p ≠ "" → idOkStr p = true) :
    ∃ s, resolveVersion oldVersion type preid = some s ∧ (parseSemver s).isSome = true ∧
      ∀ p, preid = some p → p ≠ "" →
        ∃ u, parseSemver s = some u ∧ u.prerelease.head? = some (.str p) := by
  have hbase2 : ∃ b w, baseVersionOf oldVersion type = some b ∧
      parseSemver b = some w ∧ w.wf = true := by
    cases type with
    | none =>
      obtain ⟨v, hv⟩ := Option.isSome_iff_exists.mp hbase
      exact ⟨oldVersion, v, rfl, hv, parseSemver_wf _ v hv⟩
    | some t =>
      simp only [validBumpInput] at hbase
      by_cases ht : t = "major" ∨ t = "minor" ∨ t = "patch"
      · rw [if_pos ht] at hbase
        obtain ⟨v, hv⟩ := Option.isSome_iff_exists.mp hbase
        rcases ht with rfl | rfl | rfl
        · exact ⟨renderSemver (incMajor v), incMajor v,
            by simp [baseVersionOf, semverInc, hv, incV],
            parseSemver_renderSemver _ (incMajor_wf v), incMajor_wf v⟩
        · exact ⟨renderSemver (incMinor v), incMinor v,
            by simp [baseVersionOf, semverInc, hv, incV],
            parseSemver_renderSemver _ (incMinor_wf v), incMinor_wf v⟩
        · exact ⟨renderSemver (incPatch v), incPatch v,
            by simp [baseVersionOf, semverInc, hv, incV],
            parseSemver_renderSemver _ (incPatch_wf v), incPatch_wf v⟩
      · rw [if_neg ht] at hbase
        obtain ⟨v, hv⟩ := Option.isSome_iff_exists.mp hbase
        exact ⟨t, v, by simp only [baseVersionOf]; rw [if_neg ht], hv, parseSemver_wf _ v hv⟩
  obtain ⟨b, w, hb, hw, hwf⟩ := hbase2
  by_cases htr : truthyOpt preid = true
  · obtain ⟨p, hp⟩ : ∃ p, preid = some p := by
      cases preid with
      | none => simp [truthyOpt] at htr
      | some p => exact ⟨p, rfl⟩
    have hpne : p ≠ "" := by
      subst hp
      simpa [truthyOpt] using htr
    have hok := hpre p hp hpne
    have hstep := semverInc_pre_step b w hw hwf p hpne hok
    refine ⟨renderSemver (incPre w (some p)), ?_, ?_, ?_⟩
    · unfold resolveVersion
      rw [if_pos htr, hb, hp]
      exact hstep.1
    · rw [hstep.2]
      rfl
    · intro q hq hqne
      rw [hp] at hq
      cases hq
      exact ⟨incPre w (some p), hstep.2, incPre_head w p hpne⟩
  · refine ⟨b, ?_, by rw [hw]; rfl, ?_⟩
    · unfold resolveVersion
      rw [if_neg htr, hb]
    · intro q hq hqne
      exfalso
      apply htr
      rw [hq]
      simpa [truthyOpt] using hqne

theorem resolved_version_valid_on_valid_input_witness :
    validBumpInput "1.2.3" (some "minor") ∧
      (∀ p, (some "beta" : Option String) = some p → p ≠ "" → idOkStr p = true) ∧
      ∃ s, resolveVersion "1.2.3" (some "minor") (some "beta") = some s ∧
        (parseSemver s).isSome = true ∧
        ∀ p, (some "beta" : Option String) = some p → p ≠ "" →
          ∃ u, parseSemver s = some u ∧ u.prerelease.head? = some (.str p) := by
  refine ⟨?_, ?_, resolved_version_valid_on_valid_input "1.2.3" (some "minor") (some "beta")
    ?_ ?_⟩
  · simp only [validBumpInput]
    rw [if_pos (by simp)]
    decide
  · intro p hp hpne
    cases hp
    decide
  · simp only [validBumpInput]
    rw [if_pos (by simp)]
    decide
  · intro p hp hpne
    cases hp
    decide

/-! ## Git state acted on by the version bump and the revert
(release.js lines 177-187 and 239-252): the package manifest as tracked in
the HEAD commit, the index and the working tree. -/

structure GitFile where
  head : String
  index : String
  work : String
deriving DecidableEq

/-- The manifest write of release.js line 240 (happens in every mode). -/
def writePkg (s : GitFile) (content : String) : GitFile := { s with work := content }

/-- git add package.json (release.js line 243, through safeRun). -/
def gitAddPkg (s : GitFile) : GitFile := { s with index := s.work }

/-- git reset HEAD . (release.js line 182). -/
def gitResetHead (s : GitFile) : GitFile := { s with index := s.head }

/-- git checkout package.json (release.js line 183): the working-tree copy
is restored from the index. -/
def gitCheckoutPkg (s : GitFile) : GitFile := { s with work := s.index }

/-- The version bump followed by the test/build gate
(release.js lines 239-252): the new manifest is written, staged through
safeRun (skipped in dry-run mode), and when the gated command fails
runAndGitRevertOnError unstages everything and restores the manifest before
terminating.  The result is the manifest state at process exit. -/
def bumpThenGate (s : GitFile) (newContent : String) (dryRun : Bool) (cmdOk : Bool) : GitFile :=
  let s1 := writePkg s newContent
  let s2 := if dryRun then s1 else gitAddPkg s1
  if cmdOk then s2
  else gitCheckoutPkg (gitResetHead s2)



/-! ## The satellite mirror wipe (release.js lines 194-198) with the
shelljs ls semantics: ls lists only entries whose names do not start with a
dot, so rm of the filtered listing keeps every hidden entry. -/

def isHidden (name : String) : Bool :=
  match name.data with
  | c :: _ => c = Char.ofNat 46
  | [] => false

/-- shelljs ls of a directory: hidden entries are not listed. -/
def lsVisible (entries : List String) : List String :=
  entries.filter fun f => !isHidden f

/-- The wipe step rm(-rf, ls(tmpFolder).filter(file =/= .git)): it removes
exactly the listed visible entries, so the hidden entries all remain. -/
def wipeScratch (entries : List String) : List String :=
  entries.filter fun f => isHidden f

/-- One live run of the mirror protocol, viewed through the tracked
contents of the mirror repository: clone the remote contents, wipe the
listed entries, copy the source contents in, stage everything and push. -/
def mirrorRun (remoteFiles : List String) (srcFiles : List String) : List String :=
  wipeScratch remoteFiles ++ srcFiles

/-- C6 fails on the code: running the mirror protocol twice with different
source contents leaves a hidden file of the first run in the mirror, because
the wipe step deletes only the entries ls lists and ls does not list hidden
entries.  Concretely: first run ships .npmignore, second run ships only
index.js, and .npmignore is still in the mirror afterwards. -/
theorem mirror_wipe_keeps_hidden_entries :
    mirrorRun (mirrorRun [] [".npmignore"]) ["index.js"] = [".npmignore", "index.js"] ∧
      ".npmignore" ∉ ["index.js"] := by
  constructor
  · decide
  · decide

/-! ## Events and traces of the release pipeline (release.js, first script)

Every externally observable action of a run becomes an event: console
output on stdout (log) or stderr (errlog), a command printed by a safe
variant in dry-run mode (planned), a command executed through a safe
variant in live mode (gateway), and a side effect not routed through the
safe variants (direct).  A trace is the event list together with the exit
code when the process terminated early. -/

inductive Event where
  | log (s : String)
  | errlog (s : String)
  | planned (cmd : String)
  | gateway (cmd : String)
  | direct (cmd : String)
deriving DecidableEq

structure Trace where
  events : List Event
  exit : Option Nat
deriving DecidableEq

/-- Sequencing: once the process exited, nothing later runs. -/
def Trace.seq (a b : Trace) : Trace :=
  match a.exit with
  | some _ => a
  | none => ⟨a.events ++ b.events, b.exit⟩

def evs (es : List Event) : Trace := ⟨es, none⟩

inductive GhResult where
  | transportError (msg : String)
  | unauthorized
  | published (url : String)
deriving DecidableEq

/-- Outcomes of the external world: per-command success and captured
output, existence of the stale pre-release changelog, the GitHub response,
and the directory listings of the two scratch clones. -/
structure Env where
  cmdOk : String → Bool
  cmdOutput : String → String
  changelogAlphaExists : Bool
  gh : GhResult
  bowerEntries : List String
  docsEntries : List String

/-- release.js line 139-142. -/
def printErrorAndExit (error : String) : Trace := ⟨[.errlog error], some 1⟩

/-- release.js line 144-148: always executes; a nonzero exit is fatal. -/
def run (e : Env) (cmd : String) : Trace :=
  if e.cmdOk cmd then ⟨[.direct cmd], none⟩
  else ⟨[.direct cmd, .errlog (e.cmdOutput cmd)], some 1⟩

/-- release.js line 150-156: gated on the mode. -/
def safeRun (e : Env) (dryRun : Bool) (cmd : String) : Trace :=
  if dryRun then ⟨[.planned cmd], none⟩
  else if e.cmdOk cmd then ⟨[.gateway cmd], none⟩
  else ⟨[.gateway cmd, .errlog (e.cmdOutput cmd)], some 1⟩

/-- release.js line 158-161 (shelljs rm does not exit on failure). -/
def safeRm (dryRun : Bool) (args : List String) : Trace :=
  if dryRun then ⟨[.planned (String.intercalate " " ("rm" :: args))], none⟩
  else ⟨[.gateway (String.intercalate " " ("rm" :: args))], none⟩

/-- release.js line 177-187. -/
def runAndGitRevertOnError (e : Env) (cmd : String) : Trace :=
  if e.cmdOk cmd then ⟨[.direct cmd], none⟩
  else
    Trace.seq ⟨[.direct cmd,
        .log ("\"" ++ cmd ++ "\" command failed, reverting version bump")], none⟩
      (Trace.seq (run e "git reset HEAD .")
        (Trace.seq (run e "git checkout package.json")
          (Trace.seq ⟨[.log "Version bump reverted"], none⟩
            (printErrorAndExit (e.cmdOutput cmd)))))

/-- The test of the JavaScript regular expression behind (.*)] on the
git status output: behind followed by a space, then a ] later on the same
line. -/
def behindTest (s : String) : Bool :=
  s.data.tails.any fun t =>
    ("behind ".data).isPrefixOf t &&
      ((t.drop 7).takeWhile (fun c => c ≠ Char.ofNat 10)).contains (Char.ofNat 93)

/-- The captured group of behind (.*)]: the line segment after behind up
to its last closing bracket (greedy match at the leftmost position). -/
def lastBracketSeg (l : List Char) : List Char :=
  ((l.reverse.dropWhile (fun c => c ≠ Char.ofNat 93)).drop 1).reverse

def behindCaptureIn : List Char → Option (List Char)
  | [] => none
  | c :: t =>
    if ("behind ".data).isPrefixOf (c :: t) &&
        (((c :: t).drop 7).takeWhile (fun c2 => c2 ≠ Char.ofNat 10)).contains (Char.ofNat 93)
    then some (lastBracketSeg (((c :: t).drop 7).takeWhile (fun c2 => c2 ≠ Char.ofNat 10)))
    else behindCaptureIn t

def behindCapture (s : String) : String :=
  match behindCaptureIn s.data with
  | some cs => String.mk cs
  | none => ""

/-- release.js line 163-175: accepted repository url forms. -/
def stripAround (front back l : List Char) : Option (List Char) :=
  if front.isPrefixOf l ∧ back.isSuffixOf l ∧ front.length + back.length ≤ l.length
  then some ((l.drop front.length).take (l.length - front.length - back.length))
  else none

def getOwnerAndRepo (url : String) : List String :=
  let m1 := stripAround ("git@github.com:".data) (".git".data) url.data
  let m2 :=
    match m1 with
    | some x => some x
    | none => stripAround ("git+https://github.com/".data) (".git".data) url.data
  let base :=
    match m2 with
    | some x => if x = [] then url.data else x
    | none => url.data
  (splitOnC (Char.ofNat 47) base).map String.mk

/-- The JavaScript template interpolation of a possibly-null value. -/
def showVer : Option String → String
  | some s => s
  | none => "null"

def showUndef : Option String → String
  | some s => s
  | none => "undefined"

/-! ## Configuration (package.json, release-script options, command line) -/

structure Config where
  bumpType : Option String
  argvPreid : Option String
  onlyDocs : Bool
  argvTag : Option String
  notes : Option String
  argvDryRun : Bool
  argvRun : Bool
  defaultDryRunSetting : Option String
  oldVersion : String
  isPrivate : Bool
  skipBuildStep : Bool
  hasBuildScript : Bool
  hasDocsBuildScript : Bool
  changelogDeclared : Bool
  changelogInstalled : Bool
  isWithinMtChangelog : Bool
  githubToken : Option String
  altPkgRootFolder : Option String
  bowerRepo : Option String
  docsRepo : Option String
  bowerRoot : String
  tmpBowerRepo : String
  docsRoot : String
  tmpDocsRepo : String
  repositoryUrl : String

/-- release.js line 25-32. -/
def isCommitsChangelogUsed (cfg : Config) : Bool :=
  cfg.changelogDeclared || cfg.isWithinMtChangelog

structure VersionBumpOptions where
  type : Option String
  preid : Option String
  npmTagName : Option String
deriving DecidableEq

/-- release.js line 110-114: only-docs forces the synthetic preid docs;
the npm tag falls back from --tag to --preid. -/
def versionBumpOptions (cfg : Config) : VersionBumpOptions :=
  { type := cfg.bumpType
    preid := if cfg.onlyDocs then some "docs" else cfg.argvPreid
    npmTagName := if truthyOpt cfg.argvTag then cfg.argvTag else cfg.argvPreid }

/-- release.js line 52 and 124-127: default dry-run posture unless the
configured value is the string false; --run forces live mode. -/
def dryRunModeOf (cfg : Config) : Bool :=
  if cfg.argvRun then false
  else cfg.argvDryRun || decide (cfg.defaultDryRunSetting ≠ some "false")

/-- The version-bump guard of the third script variant (line 746): also
passes when version bumping is explicitly skipped. -/
def versionBumpGuardFails (skipVersionBumping : Bool) (type preid : Option String) : Bool :=
  !skipVersionBumping && type.isNone && preid.isNone

/-! ## Pipeline segments (release.js line 207-407) -/

/-- Lines 210-221. -/
def preflight (e : Env) : Trace :=
  Trace.seq ⟨[.direct "git diff-index --name-only HEAD --"], none⟩
    (if e.cmdOutput "git diff-index --name-only HEAD --" ≠ "" then
      printErrorAndExit "Git repository must be clean"
    else
      Trace.seq ⟨[.log "No pending changes"], none⟩
        (Trace.seq ⟨[.direct "git fetch"], none⟩
          (Trace.seq ⟨[.direct "git status -sb"], none⟩
            (if behindTest (e.cmdOutput "git status -sb") then
              printErrorAndExit ("Your repo is behind by " ++
                behindCapture (e.cmdOutput "git status -sb") ++ " commits")
            else ⟨[.log "Current with latest changes from remote"], none⟩))))

/-- Lines 223-243: the manifest is written directly in every mode; staging
goes through safeRun.  A null new version makes line 242 throw. -/
def versionBump (e : Env) (dry : Bool) (oldVersion : String) (newVersion : Option String) :
    Trace :=
  Trace.seq ⟨[.direct ("write package.json version=" ++ showVer newVersion)], none⟩
    (match newVersion with
     | none => ⟨[.errlog "TypeError: newVersion is null"], some 1⟩
     | some nv =>
       Trace.seq ⟨[.log ("Version changed from " ++ oldVersion ++ " to " ++ nv)], none⟩
         (safeRun e dry "git add package.json"))

/-- Lines 245-267. -/
def buildTestGate (cfg : Config) (e : Env) : Trace :=
  Trace.seq ⟨[.log "Running: \"npm run test\""], none⟩
    (Trace.seq (runAndGitRevertOnError e "npm run test")
      (Trace.seq ⟨[.log "Completed: \"npm run test\""], none⟩
        (if cfg.onlyDocs && cfg.hasDocsBuildScript then
          Trace.seq ⟨[.log "Running: docs-build"], none⟩
            (Trace.seq (runAndGitRevertOnError e "npm run docs-build")
              ⟨[.log "Completed: docs-build"], none⟩)
        else if cfg.hasBuildScript && !cfg.skipBuildStep then
          Trace.seq ⟨[.log "Running: build"], none⟩
            (Trace.seq (runAndGitRevertOnError e "npm run build")
              ⟨[.log "Completed: build"], none⟩)
        else ⟨[.log "Skipping \"npm run build\" step."], none⟩)))

/-- Lines 272-301. -/
def changelogStage (cfg : Config) (e : Env) (dry : Bool) (preidTruthy : Bool)
    (versionAndNotes : String) : Trace :=
  if isCommitsChangelogUsed cfg then
    Trace.seq
      (if e.changelogAlphaExists then ⟨[.direct "rm -rf CHANGELOG-alpha.md"], none⟩
       else ⟨[], none⟩)
      (Trace.seq (run e ((if cfg.isWithinMtChangelog then "./bin/changelog" else "changelog") ++
          " --title=\"" ++ versionAndNotes ++ "\" --out " ++
          (if preidTruthy then "CHANGELOG-alpha.md" else "CHANGELOG.md") ++ " " ++
          (if preidTruthy then "" else "--exclude-pre-releases")))
        (Trace.seq (safeRun e dry "git add CHANGELOG.md")
          (Trace.seq
            (if preidTruthy || e.changelogAlphaExists then
              safeRun e dry "git add -A CHANGELOG-alpha.md"
            else ⟨[], none⟩)
            ⟨[.log "Generated Changelog"], none⟩)))
  else ⟨[], none⟩

/-- Lines 303-314. -/
def commitTagPush (cfg : Config) (e : Env) (dry : Bool) (preidTruthy : Bool)
    (vVersion versionAndNotes : String) : Trace :=
  Trace.seq (safeRun e dry ("git commit -m \"Release " ++ vVersion ++ "\""))
    (Trace.seq ⟨[.log ("Tagging: " ++ vVersion)], none⟩
      (Trace.seq
        (if isCommitsChangelogUsed cfg then
          Trace.seq (run e ((if cfg.isWithinMtChangelog then "./bin/changelog" else "changelog") ++
              " --title=\"" ++ versionAndNotes ++ "\" -s"))
            (safeRun e dry ("changelog --title=\"" ++ versionAndNotes ++ "\" " ++
              (if preidTruthy then "" else "--exclude-pre-releases") ++
              " -s | git tag -a -F - " ++ vVersion))
        else safeRun e dry ("git tag -a --message=\"" ++ versionAndNotes ++ "\" " ++ vVersion))
        (Trace.seq (safeRun e dry "git push --follow-tags")
          ⟨[.log ("Tagged: " ++ vVersion)], none⟩)))

/-- Lines 189-205: the satellite mirror protocol. -/
def releaseAdRepo (e : Env) (dry : Bool) (repo srcFolder tmpFolder vVersion : String)
    (entries : List String) : Trace :=
  if repo = "" ∨ srcFolder = "" ∨ tmpFolder = "" ∨ vVersion = "" then
    printErrorAndExit
      "Bug error. Create github issue: releaseAdRepo - One of parameters is not set."
  else
    Trace.seq ⟨[.direct ("rm -rf " ++ tmpFolder)], none⟩
      (Trace.seq (run e ("git clone " ++ repo ++ " " ++ tmpFolder))
        (Trace.seq ⟨[.direct ("pushd " ++ tmpFolder)], none⟩
          (Trace.seq ⟨[.direct ("rm -rf " ++ String.intercalate " "
              ((lsVisible entries).filter (fun f => f ≠ ".git")))], none⟩
            (Trace.seq ⟨[.direct ("cp -R " ++ srcFolder ++ " " ++ tmpFolder)], none⟩
              (Trace.seq (safeRun e dry "git add -A .")
                (Trace.seq (safeRun e dry ("git commit -m \"Release " ++ vVersion ++ "\""))
                  (Trace.seq (safeRun e dry ("git tag -a --message=" ++ vVersion ++ " " ++
                      vVersion))
                    (Trace.seq (safeRun e dry "git push --follow-tags")
                      (Trace.seq ⟨[.direct "popd"], none⟩
                        (safeRm dry ["-rf", tmpFolder]))))))))))

/-- Lines 316-355: the GitHub publish with its only-logging callback. -/
def githubStage (cfg : Config) (e : Env) (dry : Bool) (preidTruthy : Bool)
    (vVersion : String) : Trace :=
  match cfg.githubToken with
  | none => ⟨[], none⟩
  | some token =>
    Trace.seq ⟨[.log ("GitHub token found " ++ token),
        .log ("Publishing to GitHub: " ++ vVersion)], none⟩
      (if dry then ⟨[.log "[publishing to GitHub] DRY RUN"], none⟩
       else
        Trace.seq ⟨[.direct ("POST https://api.github.com/repos/" ++
            showUndef ((getOwnerAndRepo cfg.repositoryUrl).get? 0) ++ "/" ++
            showUndef ((getOwnerAndRepo cfg.repositoryUrl).get? 1) ++ "/releases tag " ++
            vVersion ++ " prerelease " ++ (if preidTruthy then "true" else "false"))], none⟩
          (match e.gh with
           | .transportError msg =>
             ⟨[.log "API request to GitHub, error has occured:", .log msg,
               .log "Skip GitHub releasing"], none⟩
           | .unauthorized =>
             ⟨[.log ("GitHub token " ++ token ++ " is wrong"),
               .log "Skip GitHub releasing"], none⟩
           | .published url => ⟨[.log ("Published at " ++ url)], none⟩))

/-- Lines 357-385. -/
def npmStage (cfg : Config) (e : Env) (dry : Bool) (preidTruthy : Bool)
    (npmTagName : Option String) : Trace :=
  if cfg.isPrivate then ⟨[.log "Package is private, skipping npm release"], none⟩
  else
    Trace.seq ⟨[.log "Releasing: npm package"], none⟩
      (Trace.seq
        (match cfg.altPkgRootFolder with
         | some alt =>
           Trace.seq ⟨[.direct ("write " ++ alt ++ "/package.json trimmed")], none⟩
             (Trace.seq ⟨[.direct ("pushd " ++ alt)], none⟩
               (Trace.seq
                 (safeRun e dry (if preidTruthy then "npm publish --tag " ++
                     showUndef npmTagName else "npm publish"))
                 ⟨[.direct "popd"], none⟩))
         | none =>
           safeRun e dry (if preidTruthy then "npm publish --tag " ++ showUndef npmTagName
             else "npm publish"))
        ⟨[.log "Released: npm package"], none⟩)

/-- Lines 387-397. -/
def bowerStage (cfg : Config) (e : Env) (dry : Bool) (vVersion : String) : Trace :=
  if cfg.isPrivate then ⟨[.log "Package is private, skipping bower release"], none⟩
  else if truthyOpt cfg.bowerRepo then
    Trace.seq ⟨[.log "Releasing: bower package"], none⟩
      (Trace.seq (releaseAdRepo e dry ((cfg.bowerRepo).getD "") cfg.bowerRoot
          cfg.tmpBowerRepo vVersion e.bowerEntries)
        ⟨[.log "Released: bower package"], none⟩)
  else
    ⟨[.log "The \"bowerRepo\" is not set in package.json. Not publishing bower."], none⟩

/-- Lines 399-404: the documents-site mirror, guarded on not-private, no
truthy preid, and a configured docs repository. -/
def docsStage (cfg : Config) (e : Env) (dry : Bool) (preidTruthy : Bool)
    (vVersion : String) : Trace :=
  if !cfg.isPrivate && !preidTruthy && truthyOpt cfg.docsRepo then
    Trace.seq ⟨[.log "Releasing: documents site"], none⟩
      (Trace.seq (releaseAdRepo e dry ((cfg.docsRepo).getD "") cfg.docsRoot
          cfg.tmpDocsRepo vVersion e.docsEntries)
        ⟨[.log "Documents site has been released"], none⟩)
  else ⟨[], none⟩

/-- Lines 207-407: the whole release pipeline, with the version resolution
reused from resolveVersion. -/
def release (cfg : Config) (e : Env) (dry : Bool) (vbo : VersionBumpOptions) : Trace :=
  if vbo.type = none ∧ truthyOpt vbo.preid = false then
    printErrorAndExit "Must specify version type or preid"
  else
    Trace.seq (preflight e)
      (Trace.seq (versionBump e dry cfg.oldVersion
          (resolveVersion cfg.oldVersion vbo.type vbo.preid))
        (Trace.seq (buildTestGate cfg e)
          (Trace.seq (changelogStage cfg e dry (truthyOpt vbo.preid)
              (if truthyOpt cfg.notes then
                ("v" ++ showVer (resolveVersion cfg.oldVersion vbo.type vbo.preid)) ++ " " ++
                  (cfg.notes).getD ""
              else "v" ++ showVer (resolveVersion cfg.oldVersion vbo.type vbo.preid)))
            (Trace.seq (commitTagPush cfg e dry (truthyOpt vbo.preid)
                ("v" ++ showVer (resolveVersion cfg.oldVersion vbo.type vbo.preid))
                (if truthyOpt cfg.notes then
                  ("v" ++ showVer (resolveVersion cfg.oldVersion vbo.type vbo.preid)) ++ " " ++
                    (cfg.notes).getD ""
                else "v" ++ showVer (resolveVersion cfg.oldVersion vbo.type vbo.preid)))
              (Trace.seq
                (if cfg.onlyDocs then ⟨[], none⟩
                 else
                  Trace.seq (githubStage cfg e dry (truthyOpt vbo.preid)
                      ("v" ++ showVer (resolveVersion cfg.oldVersion vbo.type vbo.preid)))
                    (Trace.seq (npmStage cfg e dry (truthyOpt vbo.preid) vbo.npmTagName)
                      (bowerStage cfg e dry
                        ("v" ++ showVer (resolveVersion cfg.oldVersion vbo.type vbo.preid)))))
                (Trace.seq (docsStage cfg e dry (truthyOpt vbo.preid)
                    ("v" ++ showVer (resolveVersion cfg.oldVersion vbo.type vbo.preid)))
                  ⟨[.log ("Version v" ++
                      showVer (resolveVersion cfg.oldVersion vbo.type vbo.preid) ++
                      " released!")], none⟩))))))

def usageHelpText : String :=
  "Usage: release-script <version> --run [--preid <identifier>] or --only-docs --run"

/-- The top level of the script (lines 25-134 and 412): the changelog
availability check, the usage-error check, the mode banner logs, then the
release pipeline. -/
def scriptMain (cfg : Config) (e : Env) : Trace :=
  Trace.seq
    (if cfg.changelogDeclared && !cfg.changelogInstalled then
      printErrorAndExit
        "The \"[rf|mt]-changelog\" package is present in \"devDependencies\", but it is not installed."
     else ⟨[], none⟩)
    (if (versionBumpOptions cfg).type = none ∧ (versionBumpOptions cfg).preid = none then
      ⟨[.log "Must provide either a version bump type, \"preid\" or \"--only-docs\"",
        .log usageHelpText], some 1⟩
     else
      Trace.seq
        (evs ((if dryRunModeOf cfg then
                [Event.log "DRY RUN"] ++
                  (if decide (cfg.defaultDryRunSetting ≠ some "false") then
                    [Event.log "For actual running of your command please add \"--run\" option"]
                  else [])
              else []) ++
              (if truthyOpt cfg.argvPreid then
                [Event.log "\"--preid\" detected. Documents will not be published"]
              else []) ++
              (if cfg.onlyDocs && !truthyOpt cfg.argvPreid then
                [Event.log "Publish only documents"]
              else [])))
        (release cfg e (dryRunModeOf cfg) (versionBumpOptions cfg)))

/-! ## Trace projections and sequencing lemmas -/

def Event.isLog : Event → Bool
  | .log _ => true
  | _ => false

def Event.isGateway : Event → Bool
  | .gateway _ => true
  | _ => false

def Event.isDirect : Event → Bool
  | .direct _ => true
  | _ => false

/-- The dry-run command plan: the commands printed by the safe variants. -/
def plannedOf (t : Trace) : List String :=
  t.events.filterMap fun ev => match ev with
    | .planned c => some c
    | _ => none

/-- The commands the safe variants execute in live mode. -/
def gatewayOf (t : Trace) : List String :=
  t.events.filterMap fun ev => match ev with
    | .gateway c => some c
    | _ => none

theorem seq_exit_none (a b : Trace) (ha : a.exit = none) (hb : b.exit = none) :
    (a.seq b).exit = none := by
  unfold Trace.seq
  rw [ha]
  exact hb

theorem seq_events (a b : Trace) (ha : a.exit = none) :
    (a.seq b).events = a.events ++ b.events := by
  unfold Trace.seq
  rw [ha]

theorem mem_seq (a b : Trace) (ev : Event) (h : ev ∈ (a.seq b).events) :
    ev ∈ a.events ∨ ev ∈ b.events := by
  unfold Trace.seq at h
  cases ha : a.exit with
  | some c => rw [ha] at h; exact Or.inl h
  | none => rw [ha] at h; exact List.mem_append.mp h

theorem mem_seq_right (a b : Trace) (ev : Event) (ha : a.exit = none)
    (h : ev ∈ b.events) : ev ∈ (a.seq b).events := by
  rw [seq_events a b ha]
  exact List.mem_append_right _ h

theorem mem_seq_left (a b : Trace) (ev : Event) (ha : a.exit = none)
    (h : ev ∈ a.events) : ev ∈ (a.seq b).events := by
  rw [seq_events a b ha]
  exact List.mem_append_left _ h

theorem plannedOf_seq (a b : Trace) (ha : a.exit = none) :
    plannedOf (a.seq b) = plannedOf a ++ plannedOf b := by
  unfold plannedOf
  rw [seq_events a b ha, List.filterMap_append]

theorem gatewayOf_seq (a b : Trace) (ha : a.exit = none) :
    gatewayOf (a.seq b) = gatewayOf a ++ gatewayOf b := by
  unfold gatewayOf
  rw [seq_events a b ha, List.filterMap_append]

/-- An environment in which every external command succeeds and the
preflight checks pass. -/
def EnvOk (e : Env) : Prop :=
  (∀ c, e.cmdOk c = true) ∧ e.cmdOutput "git diff-index --name-only HEAD --" = "" ∧
    behindTest (e.cmdOutput "git status -sb") = false

/-- A canonical all-success environment for concrete runs. -/
def envAllOk : Env :=
  { cmdOk := fun _ => true, cmdOutput := fun _ => "", changelogAlphaExists := false,
    gh := .published "https://github.com/own/repo/releases/tag/v1.3.0",
    bowerEntries := [], docsEntries := [] }

theorem envAllOk_ok : EnvOk envAllOk :=
  ⟨fun _ => rfl, rfl, by decide⟩

/-- C2: if the gated test or build command fails after the version bump was
written to the manifest, the gate runs git reset HEAD . and
git checkout package.json and terminates with exit code 1, and the revert
leaves the manifest on disk byte-equal to its state before the run started
(the run starts from a clean tree, as PreflightChecker enforces), in
dry-run and live mode alike. -/
theorem gate_failure_restores_manifest (orig newContent : String) (dryRun : Bool)
    (e : Env) (cmd : String) (hfail : e.cmdOk cmd = false)
    (hreset : e.cmdOk "git reset HEAD ." = true)
    (hcheckout : e.cmdOk "git checkout package.json" = true) :
    (bumpThenGate ⟨orig, orig, orig⟩ newContent dryRun false).work = orig ∧
      Event.direct "git reset HEAD ." ∈ (runAndGitRevertOnError e cmd).events ∧
      Event.direct "git checkout package.json" ∈ (runAndGitRevertOnError e cmd).events ∧
      (runAndGitRevertOnError e cmd).exit = some 1 := by
  refine ⟨by cases dryRun <;> rfl, ?_, ?_, ?_⟩ <;>
    simp [runAndGitRevertOnError, hfail, run, hreset, hcheckout, Trace.seq,
      printErrorAndExit]

/-- An environment in which only the test command fails. -/
def envTestFails : Env :=
  { envAllOk with
    cmdOk := fun c => c ≠ "npm run test"
    cmdOutput := fun _ => "test suite failed" }

theorem gate_failure_restores_manifest_witness :
    envTestFails.cmdOk "npm run test" = false ∧
      envTestFails.cmdOk "git reset HEAD ." = true ∧
      envTestFails.cmdOk "git checkout package.json" = true ∧
      ((bumpThenGate ⟨"pkg-v1", "pkg-v1", "pkg-v1"⟩ "pkg-v2" false false).work = "pkg-v1" ∧
        Event.direct "git reset HEAD ." ∈
          (runAndGitRevertOnError envTestFails "npm run test").events ∧
        Event.direct "git checkout package.json" ∈
          (runAndGitRevertOnError envTestFails "npm run test").events ∧
        (runAndGitRevertOnError envTestFails "npm run test").exit = some 1) :=
  ⟨by decide, by decide, by decide,
    gate_failure_restores_manifest "pkg-v1" "pkg-v2" false envTestFails "npm run test"
      (by decide) (by decide) (by decide)⟩

/-! ## String head separation (for telling fixed log texts apart) -/

theorem head_of_string_append (a b : String) (c : Char) (h : a.data.head? = some c) :
    (a ++ b).data.head? = some c := by
  cases ha : a.data with
  | nil => rw [ha] at h; cases h
  | cons x t =>
    rw [ha] at h
    cases h
    show (a.data ++ b.data).head? = _
    rw [ha]
    rfl

theorem ne_of_head_ne (x m : String) (c d : Char) (hx : x.data.head? = some c)
    (hm : m.data.head? = some d) (hne : c ≠ d) : x ≠ m := by
  intro he
  subst he
  rw [hx] at hm
  cases hm
  exact hne rfl

/-- C7: the satellite-mirror operation fails fatally whenever one of its
parameters is missing or empty, and its whole trace is the single error
line with exit code 1 - no clone, copy, commit, tag or push is performed
in any mode. -/
theorem releaseAdRepo_guards_params (e : Env) (dry : Bool)
    (repo srcFolder tmpFolder vVersion : String) (entries : List String)
    (h : repo = "" ∨ srcFolder = "" ∨ tmpFolder = "" ∨ vVersion = "") :
    releaseAdRepo e dry repo srcFolder tmpFolder vVersion entries =
      ⟨[.errlog
          "Bug error. Create github issue: releaseAdRepo - One of parameters is not set."],
        some 1⟩ := by
  unfold releaseAdRepo
  rw [if_pos h]
  rfl

theorem releaseAdRepo_guards_params_witness :
    releaseAdRepo envAllOk false "" "amd" "tmp-bower-repo" "v1.3.0" [] =
      ⟨[.errlog
          "Bug error. Create github issue: releaseAdRepo - One of parameters is not set."],
        some 1⟩ :=
  releaseAdRepo_guards_params envAllOk false "" "amd" "tmp-bower-repo" "v1.3.0" []
    (Or.inl rfl)

/-- C9: with no bump kind, no preid and not docs-only (so the third
variant's version-bump guard with skip-version-bumping off also fires), the
script prints the usage error and help and exits with code 1; its whole
trace consists of those two log lines, so no manifest, working-tree or
remote mutation has happened. -/
theorem usage_error_exits_before_any_mutation (cfg : Config) (e : Env)
    (hchl : (cfg.changelogDeclared && !cfg.changelogInstalled) = false)
    (htype : cfg.bumpType = none) (hpreid : cfg.argvPreid = none)
    (hdocs : cfg.onlyDocs = false) :
    versionBumpGuardFails false (versionBumpOptions cfg).type
        (versionBumpOptions cfg).preid = true ∧
      scriptMain cfg e =
        ⟨[.log "Must provide either a version bump type, \"preid\" or \"--only-docs\"",
          .log usageHelpText], some 1⟩ ∧
      ∀ ev ∈ (scriptMain cfg e).events, ev.isLog = true := by
  have ht2 : (versionBumpOptions cfg).type = none := by
    simp [versionBumpOptions, htype]
  have hp2 : (versionBumpOptions cfg).preid = none := by
    simp [versionBumpOptions, hpreid, hdocs]
  refine ⟨by rw [versionBumpGuardFails, ht2, hp2]; rfl, ?_, ?_⟩
  · simp [scriptMain, hchl, ht2, hp2, Trace.seq]
  · intro ev hev
    simp [scriptMain, hchl, ht2, hp2, Trace.seq] at hev
    rcases hev with rfl | rfl <;> rfl

theorem usage_error_exits_before_any_mutation_witness :
    ∃ cfg : Config, (cfg.changelogDeclared && !cfg.changelogInstalled) = false ∧
      cfg.bumpType = none ∧ cfg.argvPreid = none ∧ cfg.onlyDocs = false ∧
      (versionBumpGuardFails false (versionBumpOptions cfg).type
          (versionBumpOptions cfg).preid = true ∧
        scriptMain cfg envAllOk =
          ⟨[.log "Must provide either a version bump type, \"preid\" or \"--only-docs\"",
            .log usageHelpText], some 1⟩ ∧
        ∀ ev ∈ (scriptMain cfg envAllOk).events, ev.isLog = true) :=
  ⟨{ bumpType := none, argvPreid := none, onlyDocs := false, argvTag := none,
     notes := none, argvDryRun := false, argvRun := false, defaultDryRunSetting := none,
     oldVersion := "1.2.3", isPrivate := false, skipBuildStep := false,
     hasBuildScript := true, hasDocsBuildScript := false, changelogDeclared := false,
     changelogInstalled := false, isWithinMtChangelog := false, githubToken := none,
     altPkgRootFolder := none, bowerRepo := none, docsRepo := none, bowerRoot := "amd",
     tmpBowerRepo := "tmp-bower-repo", docsRoot := "docs-built",
     tmpDocsRepo := "tmp-docs-repo", repositoryUrl := "own/repo" },
    rfl, rfl, rfl, rfl,
    usage_error_exits_before_any_mutation _ envAllOk rfl rfl rfl rfl⟩

/-! ## No segment before the documents-site step logs its marker line -/

theorem not_mem_seq (a b : Trace) (ev : Event) (hna : ev ∉ a.events)
    (hnb : ev ∉ b.events) : ev ∉ (a.seq b).events :=
  fun h => (mem_seq a b ev h).elim hna hnb

theorem not_mem_ite (c : Prop) [Decidable c] (a b : Trace) (ev : Event)
    (hna : ev ∉ a.events) (hnb : ev ∉ b.events) : ev ∉ (if c then a else b).events := by
  split
  · exact hna
  · exact hnb

theorem not_mem_ite_list (c : Prop) [Decidable c] (a b : List Event) (ev : Event)
    (hna : ev ∉ a) (hnb : ev ∉ b) : ev ∉ (if c then a else b) := by
  split
  · exact hna
  · exact hnb

theorem not_mem_append_ev (a b : List Event) (ev : Event) (hna : ev ∉ a) (hnb : ev ∉ b) :
    ev ∉ a ++ b := fun h => (List.mem_append.mp h).elim hna hnb

theorem no_log_in_run (e : Env) (cmd s : String) : Event.log s ∉ (run e cmd).events := by
  unfold run
  split <;> simp

theorem no_log_in_safeRun (e : Env) (dry : Bool) (cmd s : String) :
    Event.log s ∉ (safeRun e dry cmd).events := by
  unfold safeRun
  split
  · simp
  · split <;> simp

theorem no_log_in_safeRm (dry : Bool) (args : List String) (s : String) :
    Event.log s ∉ (safeRm dry args).events := by
  unfold safeRm
  split <;> simp

/-- A log whose text starts with a character other than R is not the
documents-site marker line. -/
theorem marker_ne_log_head (x : String) (c : Char) (hx : x.data.head? = some c)
    (hne : c ≠ Char.ofNat 82)
    (h : Event.log "Releasing: documents site" = Event.log x) : False := by
  injection h with hs
  exact ne_of_head_ne x _ c (Char.ofNat 82) hx (by decide) hne hs.symm

theorem marker_not_mem_rev (e : Env) (cmd : String) :
    Event.log "Releasing: documents site" ∉ (runAndGitRevertOnError e cmd).events := by
  unfold runAndGitRevertOnError
  split
  · simp
  · apply not_mem_seq
    · intro h
      simp only [List.mem_cons, List.not_mem_nil, or_false] at h
      rcases h with h | h
      · exact Event.noConfusion h
      · exact marker_ne_log_head _ (Char.ofNat 34)
          (head_of_string_append _ _ _
            (head_of_string_append "\"" cmd (Char.ofNat 34) (by decide))) (by decide) h
    · apply not_mem_seq _ _ _ (no_log_in_run e _ _)
      apply not_mem_seq _ _ _ (no_log_in_run e _ _)
      apply not_mem_seq
      · decide
      · simp [printErrorAndExit]

theorem marker_not_mem_preflight (e : Env) :
    Event.log "Releasing: documents site" ∉ (preflight e).events := by
  unfold preflight
  apply not_mem_seq
  · decide
  · apply not_mem_ite
    · simp [printErrorAndExit]
    · apply not_mem_seq
      · decide
      · apply not_mem_seq
        · decide
        · apply not_mem_seq
          · decide
          · apply not_mem_ite
            · simp [printErrorAndExit]
            · decide

theorem marker_not_mem_versionBump (e : Env) (dry : Bool) (oldVersion : String)
    (newVersion : Option String) :
    Event.log "Releasing: documents site" ∉ (versionBump e dry oldVersion newVersion).events := by
  unfold versionBump
  apply not_mem_seq
  · simp
  · cases newVersion with
    | none => simp
    | some nv =>
      apply not_mem_seq
      · intro h
        simp only [List.mem_singleton] at h
        exact marker_ne_log_head _ (Char.ofNat 86)
          (head_of_string_append _ _ _ (head_of_string_append _ _ _
            (head_of_string_append _ _ _ (by decide)))) (by decide) h
      · exact no_log_in_safeRun e dry _ _

theorem marker_not_mem_buildTestGate (cfg : Config) (e : Env) :
    Event.log "Releasing: documents site" ∉ (buildTestGate cfg e).events := by
  unfold buildTestGate
  apply not_mem_seq
  · decide
  · apply not_mem_seq _ _ _ (marker_not_mem_rev e _)
    apply not_mem_seq
    · decide
    · apply not_mem_ite
      · apply not_mem_seq
        · decide
        · exact not_mem_seq _ _ _ (marker_not_mem_rev e _) (by decide)
      · apply not_mem_ite
        · apply not_mem_seq
          · decide
          · exact not_mem_seq _ _ _ (marker_not_mem_rev e _) (by decide)
        · decide

theorem marker_not_mem_changelogStage (cfg : Config) (e : Env) (dry : Bool)
    (preidTruthy : Bool) (versionAndNotes : String) :
    Event.log "Releasing: documents site" ∉
      (changelogStage cfg e dry preidTruthy versionAndNotes).events := by
  unfold changelogStage
  split
  · apply not_mem_seq
    · apply not_mem_ite
      · decide
      · decide
    · apply not_mem_seq _ _ _ (no_log_in_run e _ _)
      apply not_mem_seq _ _ _ (no_log_in_safeRun e dry _ _)
      apply not_mem_seq
      · apply not_mem_ite
        · exact no_log_in_safeRun e dry _ _
        · decide
      · decide
  · decide

theorem marker_not_mem_commitTagPush (cfg : Config) (e : Env) (dry : Bool)
    (preidTruthy : Bool) (vVersion versionAndNotes : String) :
    Event.log "Releasing: documents site" ∉
      (commitTagPush cfg e dry preidTruthy vVersion versionAndNotes).events := by
  unfold commitTagPush
  apply not_mem_seq _ _ _ (no_log_in_safeRun e dry _ _)
  apply not_mem_seq
  · intro h
    simp only [List.mem_singleton] at h
    exact marker_ne_log_head _ (Char.ofNat 84)
      (head_of_string_append _ _ _ (by decide)) (by decide) h
  · apply not_mem_seq
    · apply not_mem_ite
      · exact not_mem_seq _ _ _ (no_log_in_run e _ _) (no_log_in_safeRun e dry _ _)
      · exact no_log_in_safeRun e dry _ _
    · apply not_mem_seq _ _ _ (no_log_in_safeRun e dry _ _)
      intro h
      simp only [List.mem_singleton] at h
      exact marker_ne_log_head _ (Char.ofNat 84)
        (head_of_string_append _ _ _ (by decide)) (by decide) h

theorem docsStage_skipped_on_truthy_preid (cfg : Config) (e : Env) (dry : Bool)
    (vVersion : String) : docsStage cfg e dry true vVersion = ⟨[], none⟩ := by
  simp [docsStage]

theorem marker_not_mem_release (cfg : Config) (e : Env) (dry : Bool)
    (vbo : VersionBumpOptions) (hdocs : cfg.onlyDocs = true)
    (hpre : truthyOpt vbo.preid = true) :
    Event.log "Releasing: documents site" ∉ (release cfg e dry vbo).events := by
  unfold release
  split
  · simp [printErrorAndExit]
  · apply not_mem_seq _ _ _ (marker_not_mem_preflight e)
    apply not_mem_seq _ _ _ (marker_not_mem_versionBump e dry _ _)
    apply not_mem_seq _ _ _ (marker_not_mem_buildTestGate cfg e)
    apply not_mem_seq _ _ _ (marker_not_mem_changelogStage cfg e dry _ _)
    apply not_mem_seq _ _ _ (marker_not_mem_commitTagPush cfg e dry _ _ _)
    apply not_mem_seq
    · decide
    · apply not_mem_seq
      · rw [hpre, docsStage_skipped_on_truthy_preid]
        decide
      · intro h
        simp only [List.mem_singleton] at h
        exact marker_ne_log_head _ (Char.ofNat 86)
          (head_of_string_append _ _ _
            (head_of_string_append "Version v" _ (Char.ofNat 86) (by decide)))
          (by decide) h

/-- C10: in a docs-only run the documentation-site mirror is never
published, for every configuration and environment: only-docs forces the
synthetic preid docs, the docs step is guarded on the absence of a truthy
preid, and the Releasing: documents site line that announces that step
never appears in the trace. -/
theorem docs_only_never_publishes_docs_site (cfg : Config) (e : Env)
    (h : cfg.onlyDocs = true) :
    (versionBumpOptions cfg).preid = some "docs" ∧
      Event.log "Releasing: documents site" ∉ (scriptMain cfg e).events := by
  have hpre : (versionBumpOptions cfg).preid = some "docs" := by
    simp [versionBumpOptions, h]
  refine ⟨hpre, ?_⟩
  unfold scriptMain
  apply not_mem_seq
  · apply not_mem_ite
    · simp [printErrorAndExit]
    · decide
  · apply not_mem_ite
    · decide
    · apply not_mem_seq
      · apply not_mem_append_ev
        · apply not_mem_append_ev
          · apply not_mem_ite_list
            · apply not_mem_append_ev
              · decide
              · apply not_mem_ite_list <;> decide
            · decide
          · apply not_mem_ite_list <;> decide
        · apply not_mem_ite_list <;> decide
      · exact marker_not_mem_release cfg e _ _ h (by rw [hpre]; decide)

theorem docs_only_never_publishes_docs_site_witness :
    ∃ cfg : Config, cfg.onlyDocs = true ∧ cfg.docsRepo = some "git@github.com:own/docs.git" ∧
      cfg.isPrivate = false ∧
      ((versionBumpOptions cfg).preid = some "docs" ∧
        Event.log "Releasing: documents site" ∉ (scriptMain cfg envAllOk).events) :=
  ⟨{ bumpType := none, argvPreid := none, onlyDocs := true, argvTag := none,
     notes := none, argvDryRun := false, argvRun := true, defaultDryRunSetting := none,
     oldVersion := "1.2.3", isPrivate := false, skipBuildStep := false,
     hasBuildScript := true, hasDocsBuildScript := true, changelogDeclared := false,
     changelogInstalled := false, isWithinMtChangelog := false, githubToken := none,
     altPkgRootFolder := none, bowerRepo := none,
     docsRepo := some "git@github.com:own/docs.git", bowerRoot := "amd",
     tmpBowerRepo := "tmp-bower-repo", docsRoot := "docs-built",
     tmpDocsRepo := "tmp-docs-repo", repositoryUrl := "own/repo" },
    rfl, rfl, rfl, docs_only_never_publishes_docs_site _ envAllOk rfl⟩

/-! ## Exit behavior of the segments when every external command succeeds -/

theorem run_exit_none (e : Env) (cmd : String) (hok : e.cmdOk cmd = true) :
    (run e cmd).exit = none := by
  simp [run, hok]

theorem safeRun_exit_none (e : Env) (dry : Bool) (cmd : String) (hok : e.cmdOk cmd = true) :
    (safeRun e dry cmd).exit = none := by
  cases dry <;> simp [safeRun, hok]

theorem safeRm_exit_none (dry : Bool) (args : List String) : (safeRm dry args).exit = none := by
  cases dry <;> simp [safeRm]

theorem rev_exit_none (e : Env) (cmd : String) (hok : e.cmdOk cmd = true) :
    (runAndGitRevertOnError e cmd).exit = none := by
  simp [runAndGitRevertOnError, hok]

theorem preflight_exit_none (e : Env) (henv : EnvOk e) : (preflight e).exit = none := by
  obtain ⟨hok, hdiff, hbehind⟩ := henv
  unfold preflight
  apply seq_exit_none _ _ rfl
  rw [if_neg (by simp [hdiff])]
  apply seq_exit_none _ _ rfl
  apply seq_exit_none _ _ rfl
  apply seq_exit_none _ _ rfl
  rw [if_neg (by simp [hbehind])]

theorem versionBump_exit_none (e : Env) (dry : Bool) (oldVersion nv : String)
    (hok : ∀ c, e.cmdOk c = true) :
    (versionBump e dry oldVersion (some nv)).exit = none := by
  unfold versionBump
  apply seq_exit_none _ _ rfl
  apply seq_exit_none _ _ rfl
  exact safeRun_exit_none e dry _ (hok _)

theorem buildTestGate_exit_none (cfg : Config) (e : Env) (hok : ∀ c, e.cmdOk c = true) :
    (buildTestGate cfg e).exit = none := by
  unfold buildTestGate
  apply seq_exit_none _ _ rfl
  apply seq_exit_none _ _ (rev_exit_none e _ (hok _))
  apply seq_exit_none _ _ rfl
  split
  · apply seq_exit_none _ _ rfl
    exact seq_exit_none _ _ (rev_exit_none e _ (hok _)) rfl
  · split
    · apply seq_exit_none _ _ rfl
      exact seq_exit_none _ _ (rev_exit_none e _ (hok _)) rfl
    · rfl

theorem changelogStage_exit_none (cfg : Config) (e : Env) (dry : Bool) (preidTruthy : Bool)
    (versionAndNotes : String) (hok : ∀ c, e.cmdOk c = true) :
    (changelogStage cfg e dry preidTruthy versionAndNotes).exit = none := by
  unfold changelogStage
  split
  · apply seq_exit_none
    · split <;> rfl
    · apply seq_exit_none _ _ (run_exit_none e _ (hok _))
      apply seq_exit_none _ _ (safeRun_exit_none e dry _ (hok _))
      apply seq_exit_none
      · split
        · exact safeRun_exit_none e dry _ (hok _)
        · rfl
      · rfl
  · rfl

theorem commitTagPush_exit_none (cfg : Config) (e : Env) (dry : Bool) (preidTruthy : Bool)
    (vVersion versionAndNotes : String) (hok : ∀ c, e.cmdOk c = true) :
    (commitTagPush cfg e dry preidTruthy vVersion versionAndNotes).exit = none := by
  unfold commitTagPush
  apply seq_exit_none _ _ (safeRun_exit_none e dry _ (hok _))
  apply seq_exit_none _ _ rfl
  apply seq_exit_none
  · split
    · exact seq_exit_none _ _ (run_exit_none e _ (hok _)) (safeRun_exit_none e dry _ (hok _))
    · exact safeRun_exit_none e dry _ (hok _)
  · exact seq_exit_none _ _ (safeRun_exit_none e dry _ (hok _)) rfl

theorem githubStage_exit_none (cfg : Config) (e : Env) (dry : Bool) (preidTruthy : Bool)
    (vVersion : String) : (githubStage cfg e dry preidTruthy vVersion).exit = none := by
  unfold githubStage
  split
  · rfl
  · apply seq_exit_none _ _ rfl
    split
    · rfl
    · apply seq_exit_none _ _ rfl
      split <;> rfl

theorem npmStage_exit_none (cfg : Config) (e : Env) (dry : Bool) (preidTruthy : Bool)
    (npmTagName : Option String) (hok : ∀ c, e.cmdOk c = true) :
    (npmStage cfg e dry preidTruthy npmTagName).exit = none := by
  unfold npmStage
  split
  · rfl
  · apply seq_exit_none _ _ rfl
    apply seq_exit_none
    · split
      · apply seq_exit_none _ _ rfl
        apply seq_exit_none _ _ rfl
        exact seq_exit_none _ _ (safeRun_exit_none e dry _ (hok _)) rfl
      · exact safeRun_exit_none e dry _ (hok _)
    · rfl

theorem truthy_getD_ne (o : Option String) (h : truthyOpt o = true) : o.getD "" ≠ "" := by
  cases o with
  | none => simp [truthyOpt] at h
  | some s => simpa [truthyOpt] using h

theorem vtag_ne_empty (s : String) : ("v" ++ s) ≠ "" := by
  intro h
  have hd : ("v" ++ s).data = "".data := congrArg String.data h
  have : ("v".data ++ s.data) = [] := hd
  simp at this

theorem releaseAdRepo_exit_none (e : Env) (dry : Bool)
    (repo srcFolder tmpFolder vVersion : String) (entries : List String)
    (hok : ∀ c, e.cmdOk c = true)
    (h : ¬(repo = "" ∨ srcFolder = "" ∨ tmpFolder = "" ∨ vVersion = "")) :
    (releaseAdRepo e dry repo srcFolder tmpFolder vVersion entries).exit = none := by
  unfold releaseAdRepo
  rw [if_neg h]
  apply seq_exit_none _ _ rfl
  apply seq_exit_none _ _ (run_exit_none e _ (hok _))
  apply seq_exit_none _ _ rfl
  apply seq_exit_none _ _ rfl
  apply seq_exit_none _ _ rfl
  apply seq_exit_none _ _ (safeRun_exit_none e dry _ (hok _))
  apply seq_exit_none _ _ (safeRun_exit_none e dry _ (hok _))
  apply seq_exit_none _ _ (safeRun_exit_none e dry _ (hok _))
  apply seq_exit_none _ _ (safeRun_exit_none e dry _ (hok _))
  exact seq_exit_none _ _ rfl (safeRm_exit_none dry _)

theorem bowerStage_exit_none (cfg : Config) (e : Env) (dry : Bool) (vVersion : String)
    (hok : ∀ c, e.cmdOk c = true) (hroot : cfg.bowerRoot ≠ "") (htmp : cfg.tmpBowerRepo ≠ "")
    (hvv : vVersion ≠ "") : (bowerStage cfg e dry vVersion).exit = none := by
  unfold bowerStage
  split
  · rfl
  · split
    · rename_i hrepo
      apply seq_exit_none _ _ rfl
      apply seq_exit_none _ _ ?_ rfl
      apply releaseAdRepo_exit_none e dry _ _ _ _ _ hok
      rintro (h | h | h | h)
      · exact truthy_getD_ne _ hrepo h
      · exact hroot h
      · exact htmp h
      · exact hvv h
    · rfl

theorem docsStage_exit_none (cfg : Config) (e : Env) (dry : Bool) (preidTruthy : Bool)
    (vVersion : String) (hok : ∀ c, e.cmdOk c = true) (hroot : cfg.docsRoot ≠ "")
    (htmp : cfg.tmpDocsRepo ≠ "") (hvv : vVersion ≠ "") :
    (docsStage cfg e dry preidTruthy vVersion).exit = none := by
  unfold docsStage
  split
  · rename_i hcond
    apply seq_exit_none _ _ rfl
    apply seq_exit_none _ _ ?_ rfl
    apply releaseAdRepo_exit_none e dry _ _ _ _ _ hok
    have hrepo : truthyOpt cfg.docsRepo = true := by
      rcases Bool.and_eq_true_iff.mp hcond with ⟨_, h2⟩
      exact h2
    rintro (h | h | h | h)
    · exact truthy_getD_ne _ hrepo h
    · exact hroot h
    · exact htmp h
    · exact hvv h
  · rfl

theorem release_exit_none (cfg : Config) (e : Env) (dry : Bool) (vbo : VersionBumpOptions)
    (henv : EnvOk e)
    (hguard : ¬(vbo.type = none ∧ truthyOpt vbo.preid = false))
    (hnv : (resolveVersion cfg.oldVersion vbo.type vbo.preid).isSome = true)
    (hroots : cfg.bowerRoot ≠ "" ∧ cfg.tmpBowerRepo ≠ "" ∧ cfg.docsRoot ≠ "" ∧
      cfg.tmpDocsRepo ≠ "") : (release cfg e dry vbo).exit = none := by
  obtain ⟨nv, hnv2⟩ := Option.isSome_iff_exists.mp hnv
  have hok := henv.1
  unfold release
  rw [if_neg hguard]
  apply seq_exit_none _ _ (preflight_exit_none e henv)
  apply seq_exit_none
  · rw [hnv2]
    exact versionBump_exit_none e dry _ nv hok
  apply seq_exit_none _ _ (buildTestGate_exit_none cfg e hok)
  apply seq_exit_none _ _ (changelogStage_exit_none cfg e dry _ _ hok)
  apply seq_exit_none _ _ (commitTagPush_exit_none cfg e dry _ _ _ hok)
  apply seq_exit_none
  · split
    · rfl
    · apply seq_exit_none _ _ (githubStage_exit_none cfg e dry _ _)
      apply seq_exit_none _ _ (npmStage_exit_none cfg e dry _ _ hok)
      exact bowerStage_exit_none cfg e dry _ hok hroots.1 hroots.2.1 (vtag_ne_empty _)
  · apply seq_exit_none _ _ ?_ rfl
    exact docsStage_exit_none cfg e dry _ _ hok hroots.2.2.1 hroots.2.2.2 (vtag_ne_empty _)

theorem mem_seq_left_any (a b : Trace) (ev : Event) (h : ev ∈ a.events) :
    ev ∈ (a.seq b).events := by
  unfold Trace.seq
  cases he : a.exit with
  | some c => exact h
  | none => exact List.mem_append_left _ h

theorem github_warns_on_unauthorized (cfg : Config) (e : Env) (preidTruthy : Bool)
    (vVersion tok : String) (htok : cfg.githubToken = some tok)
    (hgh : e.gh = GhResult.unauthorized) :
    Event.log ("GitHub token " ++ tok ++ " is wrong") ∈
        (githubStage cfg e false preidTruthy vVersion).events ∧
      Event.log "Skip GitHub releasing" ∈
        (githubStage cfg e false preidTruthy vVersion).events := by
  constructor <;> simp [githubStage, htok, hgh, Trace.seq]

theorem github_warns_on_transport (cfg : Config) (e : Env) (preidTruthy : Bool)
    (vVersion tok msg : String) (htok : cfg.githubToken = some tok)
    (hgh : e.gh = GhResult.transportError msg) :
    Event.log "API request to GitHub, error has occured:" ∈
        (githubStage cfg e false preidTruthy vVersion).events ∧
      Event.log msg ∈ (githubStage cfg e false preidTruthy vVersion).events ∧
      Event.log "Skip GitHub releasing" ∈
        (githubStage cfg e false preidTruthy vVersion).events := by
  refine ⟨?_, ?_, ?_⟩ <;> simp [githubStage, htok, hgh, Trace.seq]

/-- Any event of the live GitHub stage occurs in the live release trace,
when the preceding stages all succeed. -/
theorem mem_githubStage_mem_release (cfg : Config) (e : Env) (vbo : VersionBumpOptions)
    (ev : Event) (henv : EnvOk e)
    (hguard : ¬(vbo.type = none ∧ truthyOpt vbo.preid = false))
    (hnv : (resolveVersion cfg.oldVersion vbo.type vbo.preid).isSome = true)
    (hdocs : cfg.onlyDocs = false)
    (h : ev ∈ (githubStage cfg e false (truthyOpt vbo.preid)
      ("v" ++ showVer (resolveVersion cfg.oldVersion vbo.type vbo.preid))).events) :
    ev ∈ (release cfg e false vbo).events := by
  obtain ⟨nv, hnv2⟩ := Option.isSome_iff_exists.mp hnv
  have hok := henv.1
  unfold release
  rw [if_neg hguard]
  apply mem_seq_right _ _ _ (preflight_exit_none e henv)
  apply mem_seq_right _ _ _ (by rw [hnv2]; exact versionBump_exit_none e false _ nv hok)
  apply mem_seq_right _ _ _ (buildTestGate_exit_none cfg e hok)
  apply mem_seq_right _ _ _ (changelogStage_exit_none cfg e false _ _ hok)
  apply mem_seq_right _ _ _ (commitTagPush_exit_none cfg e false _ _ _ hok)
  apply mem_seq_left_any
  rw [if_neg (by simp [hdocs])]
  apply mem_seq_left_any
  exact h

/-- C8: host release publishing is best-effort and never fatal: when the
token is present, the run is live and not docs-only, and every other stage
succeeds, the process runs to completion (exit code 0) whatever the API
response is; when the response is Unauthorized the wrong-token warning and
the skip warning are logged, and when any transport error occurs the
error-occured line, the error itself and the skip warning are logged. -/
theorem github_response_never_fatal (cfg : Config) (e : Env) (tok : String)
    (henv : EnvOk e)
    (htok : cfg.githubToken = some tok) (hdocs : cfg.onlyDocs = false)
    (hlive : dryRunModeOf cfg = false)
    (hchl : (cfg.changelogDeclared && !cfg.changelogInstalled) = false)
    (husage : ¬((versionBumpOptions cfg).type = none ∧
      (versionBumpOptions cfg).preid = none))
    (hguard : ¬((versionBumpOptions cfg).type = none ∧
      truthyOpt (versionBumpOptions cfg).preid = false))
    (hnv : (resolveVersion cfg.oldVersion (versionBumpOptions cfg).type
      (versionBumpOptions cfg).preid).isSome = true)
    (hroots : cfg.bowerRoot ≠ "" ∧ cfg.tmpBowerRepo ≠ "" ∧ cfg.docsRoot ≠ "" ∧
      cfg.tmpDocsRepo ≠ "") :
    (scriptMain cfg e).exit = none ∧
      (e.gh = GhResult.unauthorized →
        Event.log ("GitHub token " ++ tok ++ " is wrong") ∈ (scriptMain cfg e).events ∧
        Event.log "Skip GitHub releasing" ∈ (scriptMain cfg e).events) ∧
      (∀ msg, e.gh = GhResult.transportError msg →
        Event.log "API request to GitHub, error has occured:" ∈ (scriptMain cfg e).events ∧
        Event.log msg ∈ (scriptMain cfg e).events ∧
        Event.log "Skip GitHub releasing" ∈ (scriptMain cfg e).events) := by
  have hrelexit := release_exit_none cfg e (dryRunModeOf cfg) (versionBumpOptions cfg)
    henv hguard hnv hroots
  rw [hlive] at hrelexit
  have hpre : (if (cfg.changelogDeclared && !cfg.changelogInstalled) = true then
      printErrorAndExit
        "The \"[rf|mt]-changelog\" package is present in \"devDependencies\", but it is not installed."
    else ⟨[], none⟩ : Trace) = ⟨[], none⟩ := by
    rw [hchl]
    simp
  have hlift : ∀ ev, ev ∈ (githubStage cfg e false (truthyOpt (versionBumpOptions cfg).preid)
      ("v" ++ showVer (resolveVersion cfg.oldVersion (versionBumpOptions cfg).type
        (versionBumpOptions cfg).preid))).events → ev ∈ (scriptMain cfg e).events := by
    intro ev hev
    unfold scriptMain
    rw [hpre]
    apply mem_seq_right _ _ _ rfl
    rw [if_neg husage]
    apply mem_seq_right _ _ _ rfl
    rw [hlive]
    exact mem_githubStage_mem_release cfg e _ ev henv hguard hnv hdocs hev
  refine ⟨?_, ?_, ?_⟩
  · unfold scriptMain
    rw [hpre]
    apply seq_exit_none _ _ rfl
    rw [if_neg husage]
    apply seq_exit_none _ _ rfl
    rw [hlive]
    exact hrelexit
  · intro hgh
    have hmem := github_warns_on_unauthorized cfg e (truthyOpt (versionBumpOptions cfg).preid)
      ("v" ++ showVer (resolveVersion cfg.oldVersion (versionBumpOptions cfg).type
        (versionBumpOptions cfg).preid)) tok htok hgh
    exact ⟨hlift _ hmem.1, hlift _ hmem.2⟩
  · intro msg hgh
    have hmem := github_warns_on_transport cfg e (truthyOpt (versionBumpOptions cfg).preid)
      ("v" ++ showVer (resolveVersion cfg.oldVersion (versionBumpOptions cfg).type
        (versionBumpOptions cfg).preid)) tok msg htok hgh
    exact ⟨hlift _ hmem.1, hlift _ hmem.2.1, hlift _ hmem.2.2⟩

/-! ## The dry-run plan versus the live gateway commands -/

def Event.isSafe : Event → Bool
  | .planned _ => true
  | .gateway _ => true
  | _ => false

theorem all_events_seq (P : Event → Prop) (a b : Trace) (ha : ∀ ev ∈ a.events, P ev)
    (hb : ∀ ev ∈ b.events, P ev) : ∀ ev ∈ (a.seq b).events, P ev :=
  fun ev hev => (mem_seq a b ev hev).elim (ha ev) (hb ev)

theorem all_events_ite (P : Event → Prop) (c : Prop) [Decidable c] (a b : Trace)
    (ha : ∀ ev ∈ a.events, P ev) (hb : ∀ ev ∈ b.events, P ev) :
    ∀ ev ∈ (if c then a else b).events, P ev := by
  split
  · exact ha
  · exact hb

theorem plannedOf_eq_nil_of_no_safe (t : Trace) (h : ∀ ev ∈ t.events, ev.isSafe = false) :
    plannedOf t = [] := by
  unfold plannedOf
  rw [List.filterMap_eq_nil]
  intro ev hev
  have := h ev hev
  cases ev <;> simp_all [Event.isSafe]

theorem gatewayOf_eq_nil_of_no_safe (t : Trace) (h : ∀ ev ∈ t.events, ev.isSafe = false) :
    gatewayOf t = [] := by
  unfold gatewayOf
  rw [List.filterMap_eq_nil]
  intro ev hev
  have := h ev hev
  cases ev <;> simp_all [Event.isSafe]

theorem run_no_safe (e : Env) (cmd : String) : ∀ ev ∈ (run e cmd).events,
    ev.isSafe = false := by
  unfold run
  split
  · intro ev hev
    simp only [List.mem_singleton] at hev
    subst hev
    rfl
  · intro ev hev
    simp only [List.mem_cons, List.not_mem_nil, or_false] at hev
    rcases hev with rfl | rfl <;> rfl

theorem rev_no_safe (e : Env) (cmd : String) : ∀ ev ∈ (runAndGitRevertOnError e cmd).events,
    ev.isSafe = false := by
  unfold runAndGitRevertOnError
  split
  · intro ev hev
    simp only [List.mem_singleton] at hev
    subst hev
    rfl
  · apply all_events_seq
    · intro ev hev
      simp only [List.mem_cons, List.not_mem_nil, or_false] at hev
      rcases hev with rfl | rfl <;> rfl
    · apply all_events_seq _ _ _ (run_no_safe e _)
      apply all_events_seq _ _ _ (run_no_safe e _)
      apply all_events_seq
      · intro ev hev
        simp only [List.mem_singleton] at hev
        subst hev
        rfl
      · intro ev hev
        simp only [printErrorAndExit, List.mem_singleton] at hev
        subst hev
        rfl

theorem preflight_no_safe (e : Env) : ∀ ev ∈ (preflight e).events, ev.isSafe = false := by
  unfold preflight
  apply all_events_seq
  · intro ev hev
    simp only [List.mem_singleton] at hev
    subst hev
    rfl
  · apply all_events_ite
    · intro ev hev
      simp only [printErrorAndExit, List.mem_singleton] at hev
      subst hev
      rfl
    · apply all_events_seq
      · intro ev hev
        simp only [List.mem_singleton] at hev
        subst hev
        rfl
      · apply all_events_seq
        · intro ev hev
          simp only [List.mem_singleton] at hev
          subst hev
          rfl
        · apply all_events_seq
          · intro ev hev
            simp only [List.mem_singleton] at hev
            subst hev
            rfl
          · apply all_events_ite
            · intro ev hev
              simp only [printErrorAndExit, List.mem_singleton] at hev
              subst hev
              rfl
            · intro ev hev
              simp only [List.mem_singleton] at hev
              subst hev
              rfl

theorem buildTestGate_no_safe (cfg : Config) (e : Env) :
    ∀ ev ∈ (buildTestGate cfg e).events, ev.isSafe = false := by
  unfold buildTestGate
  apply all_events_seq
  · intro ev hev
    simp only [List.mem_singleton] at hev
    subst hev
    rfl
  · apply all_events_seq _ _ _ (rev_no_safe e _)
    apply all_events_seq
    · intro ev hev
      simp only [List.mem_singleton] at hev
      subst hev
      rfl
    · apply all_events_ite
      · apply all_events_seq
        · intro ev hev
          simp only [List.mem_singleton] at hev
          subst hev
          rfl
        · apply all_events_seq _ _ _ (rev_no_safe e _)
          intro ev hev
          simp only [List.mem_singleton] at hev
          subst hev
          rfl
      · apply all_events_ite
        · apply all_events_seq
          · intro ev hev
            simp only [List.mem_singleton] at hev
            subst hev
            rfl
          · apply all_events_seq _ _ _ (rev_no_safe e _)
            intro ev hev
            simp only [List.mem_singleton] at hev
            subst hev
            rfl
        · intro ev hev
          simp only [List.mem_singleton] at hev
          subst hev
          rfl

theorem githubStage_no_safe (cfg : Config) (e : Env) (dry : Bool) (preidTruthy : Bool)
    (vVersion : String) : ∀ ev ∈ (githubStage cfg e dry preidTruthy vVersion).events,
      ev.isSafe = false := by
  unfold githubStage
  split
  · intro ev hev
    simp at hev
  · apply all_events_seq
    · intro ev hev
      simp only [List.mem_cons, List.not_mem_nil, or_false] at hev
      rcases hev with rfl | rfl <;> rfl
    · apply all_events_ite
      · intro ev hev
        simp only [List.mem_singleton] at hev
        subst hev
        rfl
      · apply all_events_seq
        · intro ev hev
          simp only [List.mem_singleton] at hev
          subst hev
          rfl
        · split <;>
          · intro ev hev
            simp only [List.mem_cons, List.mem_singleton, List.not_mem_nil, or_false] at hev
            first
            | (rcases hev with rfl | rfl | rfl <;> rfl)
            | (rcases hev with rfl | rfl <;> rfl)
            | (subst hev; rfl)

theorem versionBump_plan (e : Env) (oldVersion : String) (nvOpt : Option String)
    (hok : ∀ c, e.cmdOk c = true) :
    plannedOf (versionBump e true oldVersion nvOpt) =
        gatewayOf (versionBump e false oldVersion nvOpt) ∧
      gatewayOf (versionBump e true oldVersion nvOpt) = [] := by
  cases nvOpt with
  | none => constructor <;> simp [versionBump, plannedOf, gatewayOf, Trace.seq]
  | some nv =>
    constructor <;> simp [versionBump, plannedOf, gatewayOf, Trace.seq, safeRun, hok]

theorem changelogStage_plan (cfg : Config) (e : Env) (preidTruthy : Bool)
    (versionAndNotes : String) (hok : ∀ c, e.cmdOk c = true) :
    plannedOf (changelogStage cfg e true preidTruthy versionAndNotes) =
        gatewayOf (changelogStage cfg e false preidTruthy versionAndNotes) ∧
      gatewayOf (changelogStage cfg e true preidTruthy versionAndNotes) = [] := by
  unfold changelogStage
  cases hu : isCommitsChangelogUsed cfg <;>
    cases ha : e.changelogAlphaExists <;>
      cases preidTruthy <;>
        constructor <;>
          simp [plannedOf, gatewayOf, Trace.seq, safeRun, run, hok]

theorem commitTagPush_plan (cfg : Config) (e : Env) (preidTruthy : Bool)
    (vVersion versionAndNotes : String) (hok : ∀ c, e.cmdOk c = true) :
    plannedOf (commitTagPush cfg e true preidTruthy vVersion versionAndNotes) =
        gatewayOf (commitTagPush cfg e false preidTruthy vVersion versionAndNotes) ∧
      gatewayOf (commitTagPush cfg e true preidTruthy vVersion versionAndNotes) = [] := by
  unfold commitTagPush
  cases hu : isCommitsChangelogUsed cfg <;>
    constructor <;>
      simp [plannedOf, gatewayOf, Trace.seq, safeRun, run, hok]

theorem npmStage_plan (cfg : Config) (e : Env) (preidTruthy : Bool)
    (npmTagName : Option String) (hok : ∀ c, e.cmdOk c = true) :
    plannedOf (npmStage cfg e true preidTruthy npmTagName) =
        gatewayOf (npmStage cfg e false preidTruthy npmTagName) ∧
      gatewayOf (npmStage cfg e true preidTruthy npmTagName) = [] := by
  unfold npmStage
  cases hp : cfg.isPrivate
  · cases halt : cfg.altPkgRootFolder <;>
      constructor <;>
        simp [plannedOf, gatewayOf, Trace.seq, safeRun, hok]
  · constructor <;> simp [plannedOf, gatewayOf]

theorem bowerStage_plan (cfg : Config) (e : Env) (vVersion : String)
    (hok : ∀ c, e.cmdOk c = true) :
    plannedOf (bowerStage cfg e true vVersion) = gatewayOf (bowerStage cfg e false vVersion) ∧
      gatewayOf (bowerStage cfg e true vVersion) = [] := by
  unfold bowerStage releaseAdRepo
  cases hp : cfg.isPrivate
  · by_cases hrep : truthyOpt cfg.bowerRepo = true
    · by_cases hg : ((cfg.bowerRepo).getD "" = "" ∨ cfg.bowerRoot = "" ∨
          cfg.tmpBowerRepo = "" ∨ vVersion = "")
      · constructor <;>
          simp [hrep, hg, printErrorAndExit, plannedOf, gatewayOf, Trace.seq]
      · constructor <;>
          simp [hrep, hg, plannedOf, gatewayOf, Trace.seq, safeRun, safeRm, run, hok]
    · constructor <;> simp [hrep, plannedOf, gatewayOf]
  · constructor <;> simp [plannedOf, gatewayOf]

theorem docsStage_plan (cfg : Config) (e : Env) (preidTruthy : Bool) (vVersion : String)
    (hok : ∀ c, e.cmdOk c = true) :
    plannedOf (docsStage cfg e true preidTruthy vVersion) =
        gatewayOf (docsStage cfg e false preidTruthy vVersion) ∧
      gatewayOf (docsStage cfg e true preidTruthy vVersion) = [] := by
  unfold docsStage releaseAdRepo
  by_cases hc : (!cfg.isPrivate && !preidTruthy && truthyOpt cfg.docsRepo) = true
  · rw [if_pos hc, if_pos hc]
    by_cases hg : ((cfg.docsRepo).getD "" = "" ∨ cfg.docsRoot = "" ∨
        cfg.tmpDocsRepo = "" ∨ vVersion = "")
    · constructor <;>
        simp [hg, printErrorAndExit, plannedOf, gatewayOf, Trace.seq]
    · constructor <;>
        simp [hg, plannedOf, gatewayOf, Trace.seq, safeRun, safeRm, run, hok]
  · rw [if_neg hc, if_neg hc]
    constructor <;> simp [plannedOf, gatewayOf]

theorem no_gateway_of_gatewayOf_nil (t : Trace) (h : gatewayOf t = []) :
    ∀ ev ∈ t.events, ev.isGateway = false := by
  intro ev hev
  have := List.filterMap_eq_nil_iff.mp h ev hev
  cases ev <;> simp_all [Event.isGateway]

/-- C1 amended, part of the corrected claim: with every external command
succeeding, the sequence of commands the safe variants print in DryRun mode
is exactly the sequence of commands the safe variants execute in Live mode
for the same configuration, and no safe variant executes anything in DryRun
mode. -/
theorem dry_plan_matches_live (cfg : Config) (e : Env) (vbo : VersionBumpOptions)
    (henv : EnvOk e)
    (hguard : ¬(vbo.type = none ∧ truthyOpt vbo.preid = false))
    (hnv : (resolveVersion cfg.oldVersion vbo.type vbo.preid).isSome = true)
    (hroots : cfg.bowerRoot ≠ "" ∧ cfg.tmpBowerRepo ≠ "" ∧ cfg.docsRoot ≠ "" ∧
      cfg.tmpDocsRepo ≠ "") :
    plannedOf (release cfg e true vbo) = gatewayOf (release cfg e false vbo) ∧
      ∀ ev ∈ (release cfg e true vbo).events, ev.isGateway = false := by
  obtain ⟨nv, hnv2⟩ := Option.isSome_iff_exists.mp hnv
  have hok := henv.1
  have hvbD : (versionBump e true cfg.oldVersion
      (resolveVersion cfg.oldVersion vbo.type vbo.preid)).exit = none := by
    rw [hnv2]
    exact versionBump_exit_none e true _ nv hok
  have hvbL : (versionBump e false cfg.oldVersion
      (resolveVersion cfg.oldVersion vbo.type vbo.preid)).exit = none := by
    rw [hnv2]
    exact versionBump_exit_none e false _ nv hok
  constructor
  · cases honly : cfg.onlyDocs
    · unfold release
      simp only [if_neg hguard]
      rw [plannedOf_seq _ _ (preflight_exit_none e henv),
        plannedOf_seq _ _ hvbD,
        plannedOf_seq _ _ (buildTestGate_exit_none cfg e hok),
        plannedOf_seq _ _ (changelogStage_exit_none cfg e true _ _ hok),
        plannedOf_seq _ _ (commitTagPush_exit_none cfg e true _ _ _ hok),
        gatewayOf_seq _ _ (preflight_exit_none e henv),
        gatewayOf_seq _ _ hvbL,
        gatewayOf_seq _ _ (buildTestGate_exit_none cfg e hok),
        gatewayOf_seq _ _ (changelogStage_exit_none cfg e false _ _ hok),
        gatewayOf_seq _ _ (commitTagPush_exit_none cfg e false _ _ _ hok)]
      simp only [honly, Bool.false_eq_true, if_false]
      rw [plannedOf_seq _ _ (seq_exit_none _ _ (githubStage_exit_none cfg e true _ _)
          (seq_exit_none _ _ (npmStage_exit_none cfg e true _ _ hok)
            (bowerStage_exit_none cfg e true _ hok hroots.1 hroots.2.1 (vtag_ne_empty _)))),
        gatewayOf_seq _ _ (seq_exit_none _ _ (githubStage_exit_none cfg e false _ _)
          (seq_exit_none _ _ (npmStage_exit_none cfg e false _ _ hok)
            (bowerStage_exit_none cfg e false _ hok hroots.1 hroots.2.1 (vtag_ne_empty _)))),
        plannedOf_seq _ _ (githubStage_exit_none cfg e true _ _),
        gatewayOf_seq _ _ (githubStage_exit_none cfg e false _ _),
        plannedOf_seq _ _ (npmStage_exit_none cfg e true _ _ hok),
        gatewayOf_seq _ _ (npmStage_exit_none cfg e false _ _ hok),
        plannedOf_seq _ _ (docsStage_exit_none cfg e true _ _ hok hroots.2.2.1 hroots.2.2.2
          (vtag_ne_empty _)),
        gatewayOf_seq _ _ (docsStage_exit_none cfg e false _ _ hok hroots.2.2.1 hroots.2.2.2
          (vtag_ne_empty _))]
      rw [plannedOf_eq_nil_of_no_safe _ (preflight_no_safe e),
        gatewayOf_eq_nil_of_no_safe _ (preflight_no_safe e),
        plannedOf_eq_nil_of_no_safe _ (buildTestGate_no_safe cfg e),
        gatewayOf_eq_nil_of_no_safe _ (buildTestGate_no_safe cfg e),
        plannedOf_eq_nil_of_no_safe _ (githubStage_no_safe cfg e true _ _),
        gatewayOf_eq_nil_of_no_safe _ (githubStage_no_safe cfg e false _ _),
        (versionBump_plan e _ _ hok).1, (changelogStage_plan cfg e _ _ hok).1,
        (commitTagPush_plan cfg e _ _ _ hok).1, (npmStage_plan cfg e _ _ hok).1,
        (bowerStage_plan cfg e _ hok).1, (docsStage_plan cfg e _ _ hok).1]
      simp [plannedOf, gatewayOf]
    · unfold release
      simp only [if_neg hguard]
      rw [plannedOf_seq _ _ (preflight_exit_none e henv),
        plannedOf_seq _ _ hvbD,
        plannedOf_seq _ _ (buildTestGate_exit_none cfg e hok),
        plannedOf_seq _ _ (changelogStage_exit_none cfg e true _ _ hok),
        plannedOf_seq _ _ (commitTagPush_exit_none cfg e true _ _ _ hok),
        gatewayOf_seq _ _ (preflight_exit_none e henv),
        gatewayOf_seq _ _ hvbL,
        gatewayOf_seq _ _ (buildTestGate_exit_none cfg e hok),
        gatewayOf_seq _ _ (changelogStage_exit_none cfg e false _ _ hok),
        gatewayOf_seq _ _ (commitTagPush_exit_none cfg e false _ _ _ hok)]
      simp only [honly, if_true]
      rw [plannedOf_seq _ _ rfl, gatewayOf_seq _ _ rfl,
        plannedOf_seq _ _ (docsStage_exit_none cfg e true _ _ hok hroots.2.2.1 hroots.2.2.2
          (vtag_ne_empty _)),
        gatewayOf_seq _ _ (docsStage_exit_none cfg e false _ _ hok hroots.2.2.1 hroots.2.2.2
          (vtag_ne_empty _))]
      rw [plannedOf_eq_nil_of_no_safe _ (preflight_no_safe e),
        gatewayOf_eq_nil_of_no_safe _ (preflight_no_safe e),
        plannedOf_eq_nil_of_no_safe _ (buildTestGate_no_safe cfg e),
        gatewayOf_eq_nil_of_no_safe _ (buildTestGate_no_safe cfg e),
        (versionBump_plan e _ _ hok).1, (changelogStage_plan cfg e _ _ hok).1,
        (commitTagPush_plan cfg e _ _ _ hok).1, (docsStage_plan cfg e _ _ hok).1]
      simp [plannedOf, gatewayOf]
  · apply no_gateway_of_gatewayOf_nil
    cases honly : cfg.onlyDocs
    · unfold release
      rw [if_neg hguard]
      rw [gatewayOf_seq _ _ (preflight_exit_none e henv),
        gatewayOf_seq _ _ hvbD,
        gatewayOf_seq _ _ (buildTestGate_exit_none cfg e hok),
        gatewayOf_seq _ _ (changelogStage_exit_none cfg e true _ _ hok),
        gatewayOf_seq _ _ (commitTagPush_exit_none cfg e true _ _ _ hok)]
      simp only [honly, Bool.false_eq_true, if_false]
      rw [gatewayOf_seq _ _ (seq_exit_none _ _ (githubStage_exit_none cfg e true _ _)
          (seq_exit_none _ _ (npmStage_exit_none cfg e true _ _ hok)
            (bowerStage_exit_none cfg e true _ hok hroots.1 hroots.2.1 (vtag_ne_empty _)))),
        gatewayOf_seq _ _ (githubStage_exit_none cfg e true _ _),
        gatewayOf_seq _ _ (npmStage_exit_none cfg e true _ _ hok),
        gatewayOf_seq _ _ (docsStage_exit_none cfg e true _ _ hok hroots.2.2.1 hroots.2.2.2
          (vtag_ne_empty _))]
      rw [gatewayOf_eq_nil_of_no_safe _ (preflight_no_safe e),
        gatewayOf_eq_nil_of_no_safe _ (buildTestGate_no_safe cfg e),
        gatewayOf_eq_nil_of_no_safe _ (githubStage_no_safe cfg e true _ _),
        (versionBump_plan e _ _ hok).2, (changelogStage_plan cfg e _ _ hok).2,
        (commitTagPush_plan cfg e _ _ _ hok).2, (npmStage_plan cfg e _ _ hok).2,
        (bowerStage_plan cfg e _ hok).2, (docsStage_plan cfg e _ _ hok).2]
      simp [gatewayOf]
    · unfold release
      rw [if_neg hguard]
      rw [gatewayOf_seq _ _ (preflight_exit_none e henv),
        gatewayOf_seq _ _ hvbD,
        gatewayOf_seq _ _ (buildTestGate_exit_none cfg e hok),
        gatewayOf_seq _ _ (changelogStage_exit_none cfg e true _ _ hok),
        gatewayOf_seq _ _ (commitTagPush_exit_none cfg e true _ _ _ hok)]
      simp only [honly, if_true]
      rw [gatewayOf_seq _ _ rfl,
        gatewayOf_seq _ _ (docsStage_exit_none cfg e true _ _ hok hroots.2.2.1 hroots.2.2.2
          (vtag_ne_empty _))]
      rw [gatewayOf_eq_nil_of_no_safe _ (preflight_no_safe e),
        gatewayOf_eq_nil_of_no_safe _ (buildTestGate_no_safe cfg e),
        (versionBump_plan e _ _ hok).2, (changelogStage_plan cfg e _ _ hok).2,
        (commitTagPush_plan cfg e _ _ _ hok).2, (docsStage_plan cfg e _ _ hok).2]
      simp [gatewayOf]

/-- A concrete configuration: minor bump, bower mirror and GitHub token
configured, default dry-run posture (no --run). -/
def demoConfig : Config :=
  { bumpType := some "minor", argvPreid := none, onlyDocs := false, argvTag := none,
    notes := none, argvDryRun := false, argvRun := false, defaultDryRunSetting := none,
    oldVersion := "1.2.3", isPrivate := false, skipBuildStep := false,
    hasBuildScript := true, hasDocsBuildScript := false, changelogDeclared := false,
    changelogInstalled := false, isWithinMtChangelog := false, githubToken := some "tok",
    altPkgRootFolder := none, bowerRepo := some "git@github.com:own/repo-bower.git",
    docsRepo := none, bowerRoot := "amd", tmpBowerRepo := "tmp-bower-repo",
    docsRoot := "docs-built", tmpDocsRepo := "tmp-docs-repo",
    repositoryUrl := "git@github.com:own/repo.git" }

def demoLiveConfig : Config := { demoConfig with argvRun := true }

def envUnauthorized : Env := { envAllOk with gh := GhResult.unauthorized }

/-- C1 fails as stated: a DryRun-mode run still mutates filesystem and
version-control state, because the manifest write, the test command, the
mirror scratch reset, the clone, the wipe and the copy do not go through
the safe variants.  Concretely, in dry-run mode the trace still contains
these direct side effects. -/
theorem dry_run_still_mutates :
    dryRunModeOf demoConfig = true ∧
      Event.direct "write package.json version=1.3.0" ∈
        (scriptMain demoConfig envAllOk).events ∧
      Event.direct "npm run test" ∈ (scriptMain demoConfig envAllOk).events ∧
      Event.direct "git clone git@github.com:own/repo-bower.git tmp-bower-repo" ∈
        (scriptMain demoConfig envAllOk).events ∧
      Event.direct "cp -R amd tmp-bower-repo" ∈ (scriptMain demoConfig envAllOk).events := by
  refine ⟨rfl, ?_, ?_, ?_, ?_⟩ <;> decide

theorem dry_plan_matches_live_witness :
    EnvOk envAllOk ∧
      (plannedOf (release demoConfig envAllOk true (versionBumpOptions demoConfig)) =
          gatewayOf (release demoConfig envAllOk false (versionBumpOptions demoConfig)) ∧
        ∀ ev ∈ (release demoConfig envAllOk true (versionBumpOptions demoConfig)).events,
          ev.isGateway = false) :=
  ⟨envAllOk_ok, dry_plan_matches_live demoConfig envAllOk (versionBumpOptions demoConfig)
    envAllOk_ok (by decide) (by decide) (by decide)⟩

def envTransportError : Env := { envAllOk with gh := GhResult.transportError "ECONNRESET" }

theorem github_response_never_fatal_witness :
    ((scriptMain demoLiveConfig envUnauthorized).exit = none ∧
      Event.log ("GitHub token " ++ "tok" ++ " is wrong") ∈
        (scriptMain demoLiveConfig envUnauthorized).events ∧
      Event.log "Skip GitHub releasing" ∈
        (scriptMain demoLiveConfig envUnauthorized).events) ∧
    ((scriptMain demoLiveConfig envTransportError).exit = none ∧
      Event.log "API request to GitHub, error has occured:" ∈
        (scriptMain demoLiveConfig envTransportError).events ∧
      Event.log "ECONNRESET" ∈ (scriptMain demoLiveConfig envTransportError).events ∧
      Event.log "Skip GitHub releasing" ∈
        (scriptMain demoLiveConfig envTransportError).events) := by
  have h1 := github_response_never_fatal demoLiveConfig envUnauthorized "tok"
    ⟨fun _ => rfl, rfl, by decide⟩ rfl rfl (by decide) rfl (by decide) (by decide)
    (by decide) (by decide)
  have h2 := github_response_never_fatal demoLiveConfig envTransportError "tok"
    ⟨fun _ => rfl, rfl, by decide⟩ rfl rfl (by decide) rfl (by decide) (by decide)
    (by decide) (by decide)
  exact ⟨⟨h1.1, h1.2.1 rfl⟩, ⟨h2.1, h2.2.2 "ECONNRESET" rfl⟩⟩
